import Mathlib

/-!
# Elasticsearch DSL driver of go-lucene: a shallow embedding

The development embeds `pkg/driver/elasticdsl.go` (the renderer that lowers a
parsed Lucene expression tree to an Elasticsearch query document) and states
the properties of the specification over that embedding.

Conventions of the embedding.

* A Go `any` operand of an expression is a value of `Operand`; the rendered
  `interface{}` result is a value of `Value`.
* A failed type assertion (a run-time abort) is the result `none`.
* `Render` writes to the tree while it renders `Boost` and `Fuzzy` nodes, so
  every rendering function returns the tree as it is after the call together
  with the Go result pair `(s, err)`.
* Trees are values: two operands never share a node.
-/

set_option autoImplicit false

namespace ElasticDSL

/-- Operator tags of `expr.Operator`. -/
inductive Operator where
  | Undefined | And | Or | Equals | Like | Not | Range | Must | MustNot
  | Boost | Fuzzy | Literal | Wild | Regexp | Greater | Less | GreaterEq
  | LessEq | In | List
  deriving DecidableEq, Repr

/-- A finite Go floating point number, the exact binary fraction
`num / 2 ^ scale` (every finite `float32` and `float64` is one). -/
structure GoFloat where
  num : Int
  scale : Nat
  deriving DecidableEq, Repr

/-- The Go comparison `x == 1.0`. -/
def GoFloat.isOne (x : GoFloat) : Bool :=
  x.num == (2 ^ x.scale : Nat)

/-- The Go floats that are not finite: `NaN`, `+Inf` and `-Inf`. -/
inductive NonFinite where
  | nan | posInf | negInf
  deriving DecidableEq, Repr

/-- Go's `%v` of a float that is not finite. -/
def NonFinite.text : NonFinite → String
  | .nan => "NaN"
  | .posInf => "+Inf"
  | .negInf => "-Inf"

mutual
/-- A Go `any` operand slot of an expression: `nil`, `*expr.Expression`,
`[]*expr.Expression`, `*expr.RangeBoundary`, `expr.Column`, `string`, an
integer, a finite floating point number, or a float that is not finite. -/
inductive Operand where
  | nil
  | expr (e : Expression)
  | exprs (es : List Expression)
  | boundary (rb : RangeBoundary)
  | column (c : String)
  | str (s : String)
  | int (n : Int)
  | float (x : GoFloat)
  | nonFinite (k : NonFinite)
/-- The node `expr.Expression`: `Left`, `Op`, `Right`, and the two operator
specific parameters read by `BoostPower()` and `FuzzyDistance()`. -/
inductive Expression where
  | mk (Left : Operand) (Op : Operator) (Right : Operand) (boostPower : GoFloat)
      (fuzzyDistance : Int)
/-- The node `expr.RangeBoundary`. -/
inductive RangeBoundary where
  | mk (Min : Operand) (Max : Operand) (Inclusive : Bool)
end

def Expression.Left : Expression → Operand
  | .mk l _ _ _ _ => l

def Expression.Op : Expression → Operator
  | .mk _ op _ _ _ => op

def Expression.Right : Expression → Operand
  | .mk _ _ r _ _ => r

def Expression.BoostPower : Expression → GoFloat
  | .mk _ _ _ bp _ => bp

def Expression.FuzzyDistance : Expression → Int
  | .mk _ _ _ _ fd => fd

def RangeBoundary.Min : RangeBoundary → Operand
  | .mk mn _ _ => mn

def RangeBoundary.Max : RangeBoundary → Operand
  | .mk _ mx _ => mx

def RangeBoundary.Inclusive : RangeBoundary → Bool
  | .mk _ _ i => i

/-- The rendered `interface{}` value. `raw` is a Go value handed through
unchanged (a string, a number, a pointer into the tree, `nil`); the other
constructors are the structs `QueryString`, `Bool`, `Range` and `HasChild`.
The four `BoolData` slots hold `nil` or a `[]interface{}`; the four
`RangeData` slots hold any value, `raw .nil` when unset; the `Range` map has
its single entry `field ↦ data`. -/
inductive Value where
  | raw (o : Operand)
  | queryString (fields : List String) (lenient : Bool) (query : String)
  | bool (must should filter mustNot : Option (List Value))
  | range (field : String) (lt lte gt gte : Value)
  | hasChild (query : Value) (type : String)

/-- The Go value `nil` of type `interface{}`. -/
@[match_pattern] def Value.nil : Value := .raw .nil

/-- A Go `string` held in an `interface{}`. -/
@[match_pattern] def Value.str (s : String) : Value := .raw (.str s)

/-- Go's `error`. -/
abbrev GoError := String

/-- What the `fmt` package prints for values whose text is decided outside
this package: `float` is `%v` of a `float64`, `ptr` is `%s` of an operand of
pointer or slice type (`*expr.Expression` and `[]*expr.Expression`, printed
through the methods of package `expr`, and `*expr.RangeBoundary`). -/
structure Fmt where
  float : GoFloat → String
  ptr : Operand → String

/-- The driver `ElasticDSLDriver`; `Fields` is the Go map from a field name to
its join type, `none` for the nil map. -/
structure ElasticDSLDriver where
  Fields : Option (List (String × String))

/-- The result of a rendering call: the Go pair `(s, err)` and the operand or
expression as it is after the call. -/
structure Ret (τ : Type) where
  s : Value
  err : Option GoError
  tree : τ

/-- Go's `strings.ReplaceAll(s, " ", new)`: every space of `s` becomes `new`. -/
def ReplaceAllSpace (s : String) (new : String) : String :=
  String.mk (s.data.flatMap fun c => if c = ' ' then new.data else [c])

/-- Go's `%d` and `%v` of an integer. -/
def fmtD (n : Int) : String := toString n

/-- Rounds the fraction `n / d` to the nearest integer, a tie to the even one. -/
def roundHalfEven (n d : Nat) : Nat :=
  let q := n / d
  let r := n % d
  if 2 * r < d then q
  else if d < 2 * r then q + 1
  else if q % 2 = 0 then q else q + 1

/-- Go's `%f` of a finite float: six decimals, rounded to nearest even. -/
def fmtF (x : GoFloat) : String :=
  let n := roundHalfEven (x.num.natAbs * 1000000) (2 ^ x.scale)
  let frac := toString (n % 1000000)
  (if x.num < 0 then "-" else "") ++ toString (n / 1000000) ++ "."
    ++ String.mk (List.replicate (6 - frac.length) '0') ++ frac

/-- Go's `%s` of an operand (`%v` where `verbV`). A string and a `Column`
print as their text; `%s` of a number is the bad-verb form `%!s(int=5)`. -/
def sprintOperand (F : Fmt) (verbV : Bool) : Operand → String
  | .nil => "<nil>"
  | .column c => c
  | .str s => s
  | .int n => if verbV then fmtD n else "%!s(int=" ++ fmtD n ++ ")"
  | .float x => if verbV then F.float x else "%!s(float64=" ++ F.float x ++ ")"
  | .nonFinite k => if verbV then k.text else "%!s(float64=" ++ k.text ++ ")"
  | o => F.ptr o

mutual
/-- Go's `%s` of a rendered value below the top level: a struct prints as
its fields between braces, a slice between brackets, a map as `map[k:v]`,
and a field holding `nil` as `<nil>`. -/
def sprintInner (F : Fmt) : Value → String
  | .raw o => sprintOperand F false o
  | .queryString fields lenient query =>
    "\x7b\x7b[" ++ " ".intercalate fields ++ "] %!s(bool=" ++ toString lenient ++ ") "
      ++ query ++ "\x7d\x7d"
  | .bool must should filter mustNot =>
    "\x7b\x7b" ++ sprintSlot F must ++ " " ++ sprintSlot F should ++ " "
      ++ sprintSlot F filter ++ " " ++ sprintSlot F mustNot ++ "\x7d\x7d"
  | .range field lt lte gt gte =>
    "\x7bmap[" ++ field ++ ":\x7b" ++ sprintInner F lt ++ " " ++ sprintInner F lte ++ " "
      ++ sprintInner F gt ++ " " ++ sprintInner F gte ++ "\x7d]\x7d"
  | .hasChild query type => "\x7b\x7b" ++ sprintInner F query ++ " " ++ type ++ "\x7d\x7d"
/-- Go's `%s` of a `BoolData` slot. -/
def sprintSlot (F : Fmt) : Option (List Value) → String
  | none => "<nil>"
  | some vs => "[" ++ sprintElems F vs ++ "]"
/-- Go's `%s` of the elements of a slice, separated by spaces. -/
def sprintElems (F : Fmt) : List Value → String
  | [] => ""
  | [v] => sprintInner F v
  | v :: w :: vs => sprintInner F v ++ " " ++ sprintElems F (w :: vs)
end

/-- Go's `fmt.Sprintf("%s", v)`. -/
def sprintS (F : Fmt) : Value → String
  | .raw .nil => "%!s(<nil>)"
  | v => sprintInner F v

/-- The type assertion `v.(string)`. -/
def Value.asString : Value → Option String
  | .raw (.str s) => some s
  | _ => none

/-- Packs a Go result pair with the tree after the call. -/
def Ret.of {τ : Type} (r : Value × Option GoError) (tree : τ) : Ret τ :=
  ⟨r.1, r.2, tree⟩

def makeQueryString (field : String) (query : String) : Value × Option GoError :=
  (.queryString [field] true query, none)

def ElasticDSLDriver.wrapInHasChild (b : ElasticDSLDriver) (field : String)
    (query : Value) : Value × Option GoError :=
  match b.Fields with
  | some fields =>
    match fields.lookup field with
    | some joinType => (.hasChild query joinType, none)
    | none => (query, none)
  | none => (query, none)

def makeLiteralOrQueryString (lit : String) (query : Bool) : Value × Option GoError :=
  if query then makeQueryString "*" lit else (.str lit, none)

/-- The flag `pEq` of `Render`: the parent scopes its operands to a field. -/
def pEq (p : Option Expression) : Bool :=
  match p with
  | none => false
  | some p =>
    p.Op == .Equals || p.Op == .Range || p.Op == .Greater || p.Op == .Less ||
    p.Op == .GreaterEq || p.Op == .LessEq || p.Op == .In || p.Op == .Like ||
    p.Op == .Fuzzy || p.Op == .Boost || p.Op == .Regexp || p.Op == .Wild

/-- The test `anyMin` / `anyMax` of the `Range` case: the bound is an
expression whose operator is `Wild`. -/
def isWild : Operand → Bool
  | .expr x => x.Op == .Wild
  | _ => false

/-- The last statement of `Render`: `return e.Left.(string), nil`. -/
def returnLeft (e : Expression) : Option (Ret Expression) :=
  match e.Left with
  | .str s => some ⟨.str s, none, e⟩
  | _ => none

/-- The `Range` case of `Render` for a right operand that is a boundary. -/
def renderRange (left : Value) (rb : RangeBoundary) (e : Expression) :
    Option (Ret Expression) :=
  let anyMin := isWild rb.Min
  let anyMax := isWild rb.Max
  match left.asString with
  | none => none
  | some field =>
    if anyMin then
      if rb.Inclusive then some ⟨.range field .nil (.raw rb.Max) .nil .nil, none, e⟩
      else some ⟨.range field (.raw rb.Max) .nil .nil .nil, none, e⟩
    else if anyMax then
      if rb.Inclusive then some ⟨.range field .nil .nil .nil (.raw rb.Min), none, e⟩
      else some ⟨.range field .nil .nil (.raw rb.Min) .nil, none, e⟩
    else if rb.Inclusive then
      some ⟨.range field .nil (.raw rb.Max) .nil (.raw rb.Min), none, e⟩
    else some ⟨.range field (.raw rb.Max) .nil (.raw rb.Min) .nil, none, e⟩

/-- The text that the `Boost` and `Fuzzy` cases append to a term: the marker,
and the number unless it is the default. -/
def suffix (e : Expression) : String :=
  match e.Op with
  | .Boost => "^" ++ (if e.BoostPower.isOne then "" else fmtF e.BoostPower)
  | _ => "~" ++ (if e.FuzzyDistance = 1 then "" else fmtD e.FuzzyDistance)

/-- The `Boost` and the `Fuzzy` case of `Render` (the two are the same code up
to the marker and the number): over a clause `exp` with a right operand the
term text of the clause is overwritten in the tree and the clause is rendered
from `exp.Left` and the new text; over a bare operand the rendered operand
gets the suffix. -/
def renderModifier (F : Fmt) (b : ElasticDSLDriver) (pEq : Bool) (left : Value)
    (e : Expression) : Option (Ret Expression) :=
  match e with
  | .mk (.expr (.mk el eop er ebp efd)) op r bp fd =>
    match er with
    | .nil =>
      some (Ret.of (makeLiteralOrQueryString (sprintS F left ++ suffix e) (!pEq)) e)
    | .expr (.mk (.str orig) rop rr rbp rfd) =>
      let text := orig ++ suffix e
      let tree := Expression.mk
        (.expr (.mk el eop (.expr (.mk (.str text) rop rr rbp rfd)) ebp efd)) op r bp fd
      match makeQueryString (sprintS F (.raw el)) text with
      | (_, some err) => some ⟨.nil, some err, tree⟩
      | (qs, none) => some (Ret.of (b.wrapInHasChild (sprintS F (.raw el)) qs) tree)
    | _ => none
  | _ => returnLeft e

/-- The loop of the `In` case over the members of the list. -/
def inQueries (left : Value) : List Expression → List Value →
    Option (Value × Option GoError)
  | [], queries => some (.bool none (some queries) none none, none)
  | query :: ll, queries =>
    match left.asString, query.Left with
    | some field, .str text =>
      match makeQueryString field text with
      | (_, some err) => some (.nil, some err)
      | (q, none) => inQueries left ll (queries ++ [q])
    | _, _ => none

/-- The `switch e.Op` of `Render`, entered with both operands rendered; `e`
is the node as the rendering of its operands left it. -/
def renderOp (F : Fmt) (b : ElasticDSLDriver) (pEq : Bool) (left right : Value)
    (e : Expression) : Option (Ret Expression) :=
  match e.Op with
  | .And => some ⟨.bool (some [left, right]) none none none, none, e⟩
  | .Or => some ⟨.bool none (some [left, right]) none none, none, e⟩
  | .Equals =>
    match left.asString, right.asString with
    | some l, some r =>
      match makeQueryString l r with
      | (_, some err) => some ⟨.nil, some err, e⟩
      | (qs, none) => some (Ret.of (b.wrapInHasChild l qs) e)
    | _, _ => none
  | .Like =>
    match left.asString, right.asString with
    | some l, some r => some (Ret.of (makeQueryString l r) e)
    | _, _ => none
  | .Not => some ⟨.bool none none none (some [left]), none, e⟩
  | .Range =>
    match e.Right with
    | .boundary rb => renderRange left rb e
    | _ => returnLeft e
  | .Must => some ⟨.bool (some [left]) none none none, none, e⟩
  | .MustNot => some ⟨.bool none none none (some [left]), none, e⟩
  | .Boost => renderModifier F b pEq left e
  | .Fuzzy => renderModifier F b pEq left e
  | .Literal => left.asString.map fun l => Ret.of (makeLiteralOrQueryString l (!pEq)) e
  | .Wild => left.asString.map fun l => Ret.of (makeLiteralOrQueryString l (!pEq)) e
  | .Regexp => left.asString.map fun l => Ret.of (makeLiteralOrQueryString l (!pEq)) e
  | .Greater => left.asString.map fun l => ⟨.range l .nil .nil right .nil, none, e⟩
  | .Less => left.asString.map fun l => ⟨.range l right .nil .nil .nil, none, e⟩
  | .GreaterEq => left.asString.map fun l => ⟨.range l .nil .nil .nil right, none, e⟩
  | .LessEq => left.asString.map fun l => ⟨.range l .nil right .nil .nil, none, e⟩
  | .In =>
    match e.Right with
    | .expr r =>
      match r.Left with
      | .exprs ll => (inQueries left ll []).map fun q => Ret.of q e
      | _ => returnLeft e
    | _ => none
  | .List => some ⟨.raw e.Left, none, e⟩
  | .Undefined => returnLeft e

mutual
/-- The method `Render` on a non-nil expression `e` with parent `p`. -/
def Render (F : Fmt) (b : ElasticDSLDriver) (e : Expression) (p : Option Expression) :
    Option (Ret Expression) :=
  match e with
  | .mk l op r bp fd =>
    match serialize F b l (some (.mk l op r bp fd)) with
    | none => none
    | some ⟨_, some err, l1⟩ => some ⟨.nil, some err, .mk l1 op r bp fd⟩
    | some ⟨left, none, l1⟩ =>
      match serialize F b r (some (.mk l op r bp fd)) with
      | none => none
      | some ⟨_, some err, r1⟩ => some ⟨.nil, some err, .mk l1 op r1 bp fd⟩
      | some ⟨right, none, r1⟩ => renderOp F b (pEq p) left right (.mk l1 op r1 bp fd)
/-- The method `serialize` on the operand `v` of the node `p`. -/
def serialize (F : Fmt) (b : ElasticDSLDriver) (v : Operand) (p : Option Expression) :
    Option (Ret Operand) :=
  match v with
  | .nil => some ⟨.str "", none, .nil⟩
  | .expr x =>
    match Render F b x p with
    | none => none
    | some ⟨s, err, x1⟩ => some ⟨s, err, .expr x1⟩
  | .exprs es => some ⟨.raw (.exprs es), none, .exprs es⟩
  | .boundary rb => some ⟨.raw (.boundary rb), none, .boundary rb⟩
  | .column c => some ⟨.str (ReplaceAllSpace c "\\ "), none, .column c⟩
  | .str s => some ⟨.str s, none, .str s⟩
  | .int n => some ⟨.str (sprintOperand F true (.int n)), none, .int n⟩
  | .float x => some ⟨.str (sprintOperand F true (.float x)), none, .float x⟩
  | .nonFinite k => some ⟨.str (sprintOperand F true (.nonFinite k)), none, .nonFinite k⟩
end

/-! ## The construction helpers of package `expr`

Package `expr` is not part of the rendered package. Its helpers are modelled
from the data model of the specification: the left operand of a field clause
is a `Column`, a literal operand is wrapped in a `Literal` leaf, a range
bound is a literal value or the `Wild` sentinel. -/

/-- The zero value of a Go float. -/
def GoFloat.zero : GoFloat := ⟨0, 0⟩

/-- The float of an integer. -/
def GoFloat.ofInt (n : Int) : GoFloat := ⟨n, 0⟩

/-- Modelled from the spec: the helper `expr.Lit`, a `Literal` leaf (a bare
term, no field) holding the raw literal value. -/
def Lit (v : Operand) : Expression := .mk v .Literal .nil GoFloat.zero 0

/-- Modelled from the spec: the helper `expr.WILD`, a `Wild` leaf. -/
def WILD (v : Operand) : Expression := .mk v .Wild .nil GoFloat.zero 0

/-- Modelled from the spec: the helper `expr.REGEXP`, a `Regexp` leaf. -/
def REGEXP (v : Operand) : Expression := .mk v .Regexp .nil GoFloat.zero 0

/-- Modelled from the spec: the helpers of package `expr` take `any`; an
operand that is already an expression is kept, a literal value becomes a
`Literal` leaf. -/
def literalToExpr : Operand → Operand
  | .expr e => .expr e
  | v => .expr (Lit v)

/-- Modelled from the spec: the helper `expr.Eq`, `Equals` over (column,
literal). -/
def Eq (f : String) (t : Operand) : Expression :=
  .mk (.column f) .Equals (literalToExpr t) GoFloat.zero 0

/-- Modelled from the spec: the helper `expr.LIKE`. -/
def LIKE (f : String) (t : Operand) : Expression :=
  .mk (.column f) .Like (literalToExpr t) GoFloat.zero 0

/-- Modelled from the spec: the helper `expr.AND`, binary conjunction. -/
def AND (a b : Operand) : Expression :=
  .mk (literalToExpr a) .And (literalToExpr b) GoFloat.zero 0

/-- Modelled from the spec: the helper `expr.OR`, binary disjunction. -/
def OR (a b : Operand) : Expression :=
  .mk (literalToExpr a) .Or (literalToExpr b) GoFloat.zero 0

/-- Modelled from the spec: the helper `expr.NOT`, unary negation. -/
def NOT (a : Operand) : Expression :=
  .mk (literalToExpr a) .Not .nil GoFloat.zero 0

/-- Modelled from the spec: the helper `expr.MUST`, the Lucene `+` marker. -/
def MUST (a : Operand) : Expression :=
  .mk (literalToExpr a) .Must .nil GoFloat.zero 0

/-- Modelled from the spec: the helper `expr.MUSTNOT`, the Lucene `-` marker. -/
def MUSTNOT (a : Operand) : Expression :=
  .mk (literalToExpr a) .MustNot .nil GoFloat.zero 0

/-- Modelled from the spec: a bound of a `RangeBoundary` is a literal value,
or the sentinel `Wild` expression when the bound is the omitted bound `*`. -/
def rangeBound : Operand → Operand
  | .str s => if s = "*" then .expr (WILD (.str s)) else .str s
  | v => v

/-- Modelled from the spec: the helper `expr.Rang`, `Range` over (column,
RangeBoundary), the flag `inclusive` applying to both bounds. -/
def Rang (f : String) (min max : Operand) (inclusive : Bool) : Expression :=
  .mk (.column f) .Range (.boundary (.mk (rangeBound min) (rangeBound max) inclusive))
    GoFloat.zero 0

/-- Modelled from the spec: the helper `expr.GREATER`, over (column, literal). -/
def GREATER (f : String) (v : Operand) : Expression :=
  .mk (.column f) .Greater (literalToExpr v) GoFloat.zero 0

/-- Modelled from the spec: the helper `expr.GREATEREQ`. -/
def GREATEREQ (f : String) (v : Operand) : Expression :=
  .mk (.column f) .GreaterEq (literalToExpr v) GoFloat.zero 0

/-- Modelled from the spec: the helper `expr.LESS`. -/
def LESS (f : String) (v : Operand) : Expression :=
  .mk (.column f) .Less (literalToExpr v) GoFloat.zero 0

/-- Modelled from the spec: the helper `expr.LESSEQ`. -/
def LESSEQ (f : String) (v : Operand) : Expression :=
  .mk (.column f) .LessEq (literalToExpr v) GoFloat.zero 0

/-- Modelled from the spec: the helper `expr.LIST`, an ordered sequence of
leaf expressions. -/
def LIST (members : List Expression) : Expression :=
  .mk (.exprs members) .List .nil GoFloat.zero 0

/-- Modelled from the spec: the helper `expr.IN`, `In` over (column, List). -/
def IN (f : String) (list : Expression) : Expression :=
  .mk (.column f) .In (.expr list) GoFloat.zero 0

/-- Modelled from the spec: the helper `expr.BOOST`, a unary wrapper carrying
the boost factor. -/
def BOOST (a : Operand) (power : GoFloat) : Expression :=
  .mk (literalToExpr a) .Boost .nil power 0

/-- Modelled from the spec: the helper `expr.FUZZY`, a unary wrapper carrying
the edit distance. -/
def FUZZY (a : Operand) (distance : Int) : Expression :=
  .mk (literalToExpr a) .Fuzzy .nil GoFloat.zero distance

/-- The Go result pair `(s, err)` of a rendering call, `none` when the call
aborted on a failed type assertion. -/
def Ret.doc {τ : Type} (r : Option (Ret τ)) : Option (Value × Option GoError) :=
  r.map fun x => (x.s, x.err)

/-- A raw literal value of the data model: a string, an integer or a finite
floating point number. -/
def Operand.isLiteral : Operand → Bool
  | .str _ => true
  | .int _ => true
  | .float _ => true
  | _ => false

/-- The test of `omitempty` on an `interface{}` field: the field is `nil`. -/
def Value.isNil : Value → Bool
  | .raw .nil => true
  | _ => false

/-- The bound keys that a `range` node carries once `omitempty` has dropped
the unset fields of `RangeData`, in the order of the struct, with their
values; the empty list for a value that is no `range` node. -/
def Value.rangeKeys : Value → List (String × Value)
  | .range _ lt lte gt gte =>
    [("lt", lt), ("lte", lte), ("gt", gt), ("gte", gte)].filter fun kv => !kv.2.isNil
  | _ => []

/-- A formatter instance for evaluating `Render` on concrete inputs. -/
def Fmt.sample : Fmt := ⟨fun _ => "<float>", fun _ => "<ptr>"⟩

/-- The `fields` array of the `query_string` node that a value is, or that
its `has_child` wrapper holds; the empty list for any other value. -/
def Value.fields : Value → List String
  | .queryString fields _ _ => fields
  | .hasChild query _ => query.fields
  | _ => []

/-! ## `RenderToString` and the JSON document

`encoding/json` is modelled by the document it builds and the text it writes
for it: a struct is an object with its tagged fields in the order of the
declaration, a field tagged `omitempty` is left out when it holds `nil`, a
map is an object, a slice an array. Marshalling fails on a float that is not
finite and where a marshaller of package `expr` fails. -/

/-- A JSON document; an object keeps the order of its members. -/
inductive Json where
  | null
  | bool (b : Bool)
  | int (n : Int)
  | float (x : GoFloat)
  | str (s : String)
  | arr (items : List Json)
  | obj (members : List (String × Json))

/-- What `encoding/json` does outside this package: `ptr` is the document of
an operand of pointer or slice type (package `expr` marshals its own types,
and may fail), `float` is the text of a finite float, `quote` is the quoted
and escaped text of a string. -/
structure Encoder where
  ptr : Operand → Except GoError Json
  float : GoFloat → String
  quote : String → String

/-- The document of an operand handed through by `Render`; a float that is
not finite is the error `UnsupportedValueError`. -/
def operandJson (E : Encoder) : Operand → Except GoError Json
  | .nil => .ok .null
  | .column c => .ok (.str c)
  | .str s => .ok (.str s)
  | .int n => .ok (.int n)
  | .float x => .ok (.float x)
  | .nonFinite k => .error ("json: unsupported value: " ++ k.text)
  | o => E.ptr o

/-- The member `key: v` of a struct field tagged `omitempty`: left out when
the field holds `nil`. -/
def omitEmpty (key : String) (isNil : Bool) (v : Except GoError Json) :
    Except GoError (List (String × Json)) :=
  if isNil then .ok [] else
    match v with
    | .ok j => .ok [(key, j)]
    | .error err => .error err

/-- Joins the members of the fields of a struct, in order; the first error
wins. -/
def joinMembers : List (Except GoError (List (String × Json))) →
    Except GoError (List (String × Json))
  | [] => .ok []
  | .error err :: _ => .error err
  | .ok ms :: rest =>
    match joinMembers rest with
    | .ok ns => .ok (ms ++ ns)
    | .error err => .error err

/-- Wraps the members of an inner struct as the one field `key` of the outer
struct. -/
def wrapObj (key : String) (members : Except GoError (List (String × Json))) :
    Except GoError Json :=
  match members with
  | .ok ms => .ok (.obj [(key, .obj ms)])
  | .error err => .error err

mutual
/-- The document that `encoding/json` builds for a rendered value, after the
struct tags of `QueryString`, `Bool`, `Range` and `HasChild`. -/
def toJson (E : Encoder) : Value → Except GoError Json
  | .raw o => operandJson E o
  | .queryString fields lenient query =>
    .ok (.obj [("query_string", .obj [("fields", .arr (fields.map Json.str)),
      ("lenient", .bool lenient), ("query", .str query)])])
  | .bool must should filter mustNot =>
    wrapObj "bool" (joinMembers [slotJson E "must" must, slotJson E "should" should,
      slotJson E "filter" filter, slotJson E "must_not" mustNot])
  | .range field lt lte gt gte =>
    match joinMembers [omitEmpty "lt" lt.isNil (toJson E lt),
        omitEmpty "lte" lte.isNil (toJson E lte), omitEmpty "gt" gt.isNil (toJson E gt),
        omitEmpty "gte" gte.isNil (toJson E gte)] with
    | .ok ms => .ok (.obj [("range", .obj [(field, .obj ms)])])
    | .error err => .error err
  | .hasChild query type =>
    wrapObj "has_child" (joinMembers [omitEmpty "query" query.isNil (toJson E query),
      .ok [("type", .str type)]])
/-- The member of a `BoolData` slot: none for `nil`, else the array. -/
def slotJson (E : Encoder) (key : String) :
    Option (List Value) → Except GoError (List (String × Json))
  | none => .ok []
  | some vs =>
    match elemsJson E vs with
    | .ok js => .ok [(key, .arr js)]
    | .error err => .error err
/-- The documents of the elements of a slice. -/
def elemsJson (E : Encoder) : List Value → Except GoError (List Json)
  | [] => .ok []
  | v :: vs =>
    match toJson E v with
    | .error err => .error err
    | .ok j =>
      match elemsJson E vs with
      | .ok js => .ok (j :: js)
      | .error err => .error err
end

/-- The indentation of `json.MarshalIndent(v, "", "    ")` at a depth. -/
def indentOf (depth : Nat) : String :=
  String.mk (List.replicate (4 * depth) ' ')

mutual
/-- The text that `json.MarshalIndent(v, "", "    ")` writes for a document
that stands at the given depth. -/
def Json.text (E : Encoder) (depth : Nat) : Json → String
  | .null => "null"
  | .bool b => toString b
  | .int n => toString n
  | .float x => E.float x
  | .str s => E.quote s
  | .arr items =>
    if items.isEmpty then "[]"
    else "[\n" ++ itemsText E (depth + 1) items ++ "\n" ++ indentOf depth ++ "]"
  | .obj members =>
    if members.isEmpty then "\x7b\x7d"
    else "\x7b\n" ++ membersText E (depth + 1) members ++ "\n" ++ indentOf depth ++ "\x7d"
/-- The elements of an array, one to a line, separated by commas. -/
def itemsText (E : Encoder) (depth : Nat) : List Json → String
  | [] => ""
  | j :: js =>
    indentOf depth ++ j.text E depth ++ (if js.isEmpty then "" else ",\n")
      ++ itemsText E depth js
/-- The members of an object, one to a line, separated by commas. -/
def membersText (E : Encoder) (depth : Nat) : List (String × Json) → String
  | [] => ""
  | (k, j) :: ms =>
    indentOf depth ++ E.quote k ++ ": " ++ j.text E depth
      ++ (if ms.isEmpty then "" else ",\n") ++ membersText E depth ms
end

/-- The call `json.MarshalIndent(map[string]interface{}{...}, "", "    ")` on
a map given by its entries in the order of the keys: the text of the object
and a nil error, or no text and the error of the first entry that fails. -/
def MarshalIndent (E : Encoder) (entries : List (String × Value)) : String × Option GoError :=
  match joinMembers (entries.map fun kv => omitEmpty kv.1 false (toJson E kv.2)) with
  | .ok ms => (Json.text E 0 (.obj ms), none)
  | .error err => ("", some err)

/-- The method `Render` on a pointer that may be `nil`: `Render(nil, p)`
returns the empty string. -/
def RenderNil (F : Fmt) (b : ElasticDSLDriver) (e : Option Expression)
    (p : Option Expression) : Option (Ret (Option Expression)) :=
  match e with
  | none => some ⟨.str "", none, none⟩
  | some e => (Render F b e p).map fun r => ⟨r.s, r.err, some r.tree⟩

/-- The result of `RenderToString`: the Go pair `(s, err)` and the tree after
the call. -/
structure StringRet where
  s : String
  err : Option GoError
  tree : Option Expression

/-- The method `RenderToString`. -/
def RenderToString (E : Encoder) (F : Fmt) (b : ElasticDSLDriver) (e : Option Expression) :
    Option StringRet :=
  match RenderNil F b e none with
  | none => none
  | some ⟨_, some err, t⟩ => some ⟨"", some err, t⟩
  | some ⟨transformed, none, t⟩ =>
    match MarshalIndent E [("query", transformed)] with
    | (_, some err) => some ⟨"", some err, t⟩
    | (bytes, none) => some ⟨bytes, none, t⟩

/-- An encoder instance for evaluating `RenderToString` on concrete inputs:
it quotes a string as it is (right for a text with no character that JSON
escapes). -/
def Encoder.sample : Encoder :=
  ⟨fun _ => .ok .null, fun _ => "<float>", fun s => "\"" ++ s ++ "\""⟩

mutual
/-- No node that `Render` visits below and at `e` is a `Boost` or a `Fuzzy`
node (the visit goes through the operands that are expressions). -/
def Expression.modifierFree : Expression → Bool
  | .mk l op r _ _ => op != .Boost && op != .Fuzzy && l.modifierFree && r.modifierFree
/-- No node that `Render` visits below the operand is a `Boost` or a `Fuzzy`
node. -/
def Operand.modifierFree : Operand → Bool
  | .expr e => e.modifierFree
  | _ => true
end

mutual
/-- No `has_child` node occurs in the value, at any depth. -/
def Value.hasChildFree : Value → Bool
  | .raw _ => true
  | .queryString _ _ _ => true
  | .bool must should filter mustNot =>
    slotHasChildFree must && slotHasChildFree should && slotHasChildFree filter
      && slotHasChildFree mustNot
  | .range _ lt lte gt gte =>
    lt.hasChildFree && lte.hasChildFree && gt.hasChildFree && gte.hasChildFree
  | .hasChild _ _ => false
/-- No `has_child` node occurs in the slot of a `BoolData`. -/
def slotHasChildFree : Option (List Value) → Bool
  | none => true
  | some vs => elemsHasChildFree vs
/-- No `has_child` node occurs in the elements of a slice. -/
def elemsHasChildFree : List Value → Bool
  | [] => true
  | v :: vs => v.hasChildFree && elemsHasChildFree vs
end

mutual
/-- The tree contains no `Boost` and no `Fuzzy` node: neither the node itself
nor any node below it, the members of a list and the bounds of a range
included. -/
def Expression.noModifier : Expression → Bool
  | .mk l op r _ _ => op != .Boost && op != .Fuzzy && l.noModifier && r.noModifier
/-- The operand contains no `Boost` and no `Fuzzy` node. -/
def Operand.noModifier : Operand → Bool
  | .expr e => e.noModifier
  | .exprs es => listNoModifier es
  | .boundary rb => rb.noModifier
  | _ => true
/-- The bounds of the range contain no `Boost` and no `Fuzzy` node. -/
def RangeBoundary.noModifier : RangeBoundary → Bool
  | .mk mn mx _ => mn.noModifier && mx.noModifier
/-- The members of the list contain no `Boost` and no `Fuzzy` node. -/
def listNoModifier : List Expression → Bool
  | [] => true
  | e :: es => e.noModifier && listNoModifier es
end

/-- The operand is a clause: an expression that has a right operand. -/
def Operand.isClause : Operand → Bool
  | .expr (.mk _ _ .nil _ _) => false
  | .expr _ => true
  | _ => false

mutual
/-- No node that `Render` visits below and at `e` is a `Boost` or a `Fuzzy`
node over a clause, the one place where `Render` assigns to the tree. -/
def Expression.writeFree : Expression → Bool
  | .mk l op r _ _ =>
    !((op == .Boost || op == .Fuzzy) && l.isClause) && l.writeFree && r.writeFree
/-- No node that `Render` visits below the operand is a `Boost` or a `Fuzzy`
node over a clause. -/
def Operand.writeFree : Operand → Bool
  | .expr e => e.writeFree
  | _ => true
end

/-! ## Shared lemmas -/

/-- The method `Render` reads its parent only through the flag `pEq`. -/
theorem Render_parent (F : Fmt) (b : ElasticDSLDriver) (e : Expression)
    (p q : Option Expression) (h : pEq p = pEq q) : Render F b e p = Render F b e q := by
  cases e with
  | mk l op r bp fd => simp only [Render, h]

/-- A result pair determines the returned record up to the tree. -/
theorem doc_eq_some {τ : Type} (r : Option (Ret τ)) (v : Value) (err : Option GoError)
    (h : Ret.doc r = some (v, err)) : ∃ t, r = some ⟨v, err, t⟩ := by
  cases r with
  | none => simp [Ret.doc] at h
  | some x =>
    obtain ⟨s, e, t⟩ := x
    simp only [Ret.doc, Option.map_some', Option.some.injEq, Prod.mk.injEq] at h
    exact ⟨t, by rw [h.1, h.2]⟩

/-- Under a field-scoping parent a `Literal` leaf over a literal value renders
as the raw text of the value. -/
theorem Render_leaf (F : Fmt) (b : ElasticDSLDriver) (t : Operand) (ht : t.isLiteral = true)
    (p : Option Expression) (h : pEq p = true) :
    Render F b (Lit t) p = some ⟨.str (sprintOperand F true t), none, Lit t⟩ := by
  cases t <;> simp [Operand.isLiteral] at ht <;>
    simp [Lit, Render, serialize, renderOp, Expression.Op, Value.asString, h,
      makeLiteralOrQueryString, Ret.of, sprintOperand, Value.str]

/-- The method `wrapInHasChild` returns a nil error. -/
theorem wrapInHasChild_err (b : ElasticDSLDriver) (field : String) (query : Value) :
    (b.wrapInHasChild field query).2 = none := by
  unfold ElasticDSLDriver.wrapInHasChild
  split
  · split <;> rfl
  · rfl

/-- On an expression operand `serialize` is `Render` on the expression. -/
theorem serialize_expr (F : Fmt) (b : ElasticDSLDriver) (x x1 : Expression)
    (p : Option Expression) (s : Value) (err : Option GoError)
    (h : Render F b x p = some ⟨s, err, x1⟩) :
    serialize F b (.expr x) p = some ⟨s, err, .expr x1⟩ := by
  simp only [serialize, h]

/-- On a node whose operands serialize with a nil error `Render` is the
`switch` on the operator, entered with the two rendered operands. -/
theorem Render_node (F : Fmt) (b : ElasticDSLDriver) (l r l1 r1 : Operand) (op : Operator)
    (bp : GoFloat) (fd : Int) (p : Option Expression) (left right : Value)
    (hl : serialize F b l (some (.mk l op r bp fd)) = some ⟨left, none, l1⟩)
    (hr : serialize F b r (some (.mk l op r bp fd)) = some ⟨right, none, r1⟩) :
    Render F b (.mk l op r bp fd) p
      = renderOp F b (pEq p) left right (.mk l1 op r1 bp fd) := by
  simp only [Render, hl, hr]

/-- On a column `serialize` gives the escaped name, the operand unchanged. -/
theorem serialize_column (F : Fmt) (b : ElasticDSLDriver) (c : String)
    (p : Option Expression) :
    serialize F b (.column c) p = some ⟨.str (ReplaceAllSpace c "\\ "), none, .column c⟩ := by
  simp only [serialize]

/-- On the absent operand `serialize` gives the empty string. -/
theorem serialize_nil (F : Fmt) (b : ElasticDSLDriver) (p : Option Expression) :
    serialize F b .nil p = some ⟨.str "", none, .nil⟩ := by
  simp only [serialize]

/-- On a literal operand wrapped by `literalToExpr`, under a field-scoping
parent, `serialize` gives the raw text of the value. -/
theorem serialize_literal (F : Fmt) (b : ElasticDSLDriver) (t : Operand)
    (ht : t.isLiteral = true) (p : Option Expression) (h : pEq p = true) :
    serialize F b (literalToExpr t) p
      = some ⟨.str (sprintOperand F true t), none, literalToExpr t⟩ := by
  have e : literalToExpr t = .expr (Lit t) := by
    cases t <;> simp [Operand.isLiteral] at ht <;> rfl
  rw [e]
  exact serialize_expr F b _ _ p _ _ (Render_leaf F b t ht p h)

/-- The rendering of `Eq(f, t)` for a literal term: the `query_string` node
over the serialized column, handed to `wrapInHasChild` under that same name. -/
theorem Render_Eq (F : Fmt) (b : ElasticDSLDriver) (f : String) (t : Operand)
    (ht : t.isLiteral = true) (p : Option Expression) :
    Render F b (Eq f t) p
      = some ⟨(b.wrapInHasChild (ReplaceAllSpace f "\\ ")
          (.queryString [ReplaceAllSpace f "\\ "] true (sprintOperand F true t))).1, none,
          Eq f t⟩ := by
  unfold Eq
  rw [Render_node F b (.column f) (literalToExpr t) _ _ .Equals GoFloat.zero 0 p _ _
    (serialize_column F b f _) (serialize_literal F b t ht _ rfl)]
  simp only [renderOp, Expression.Op, Value.asString, Value.str, makeQueryString, Ret.of,
    wrapInHasChild_err]

/-- A literal bound other than `*` is kept by `rangeBound` and is not `Wild`. -/
theorem rangeBound_literal (v : Operand) (hv : v.isLiteral = true) (hs : v ≠ .str "*") :
    rangeBound v = v ∧ isWild v = false := by
  cases v <;> simp [Operand.isLiteral] at hv <;> simp [rangeBound, isWild]
  intro h
  exact hs (by rw [h])

/-- The loop of the `In` case over text leaves appends one `query_string`
node per member, in order. -/
theorem inQueries_lits (field : String) (ts : List String) (acc : List Value) :
    inQueries (.str field) (ts.map fun t => Lit (.str t)) acc
      = some (.bool none (some (acc ++ ts.map fun t => .queryString [field] true t))
          none none, none) := by
  induction ts generalizing acc with
  | nil => simp [inQueries]
  | cons t ts ih =>
    simp only [List.map_cons, inQueries, Value.asString, Value.str, Expression.Left,
      makeQueryString, show (Lit (.str t)) = Expression.mk (.str t) .Literal .nil GoFloat.zero 0
        from rfl]
    rw [show Value.raw (Operand.str field) = Value.str field from rfl, ih]
    simp

/-- Escaping lengthens a name by one character per space. -/
theorem ReplaceAllSpace_length (f : String) :
    (ReplaceAllSpace f "\\ ").length = f.length + f.data.count ' ' := by
  obtain ⟨l⟩ := f
  simp only [ReplaceAllSpace, String.length]
  induction l with
  | nil => rfl
  | cons c cs ih =>
    simp only [List.flatMap_cons, List.length_append, ih, List.length_cons, List.count_cons]
    by_cases h : c = ' '
    · subst h
      simp
      omega
    · have h2 : (c == ' ') = false := by simpa using h
      simp [h, h2]
      omega

/-- Escaping leaves a name without a space as it is. -/
theorem ReplaceAllSpace_no_space (f : String) (h : ' ' ∉ f.data) :
    ReplaceAllSpace f "\\ " = f := by
  obtain ⟨l⟩ := f
  simp only [ReplaceAllSpace]
  congr 1
  induction l with
  | nil => rfl
  | cons c cs ih =>
    simp only [List.mem_cons, not_or] at h
    have hc : c ≠ ' ' := fun e => h.1 e.symm
    simp [hc, ih h.2]

/-- Induction over the nodes that `Render` visits: a property of operands
that holds for every operand that is no expression, and a property of
expressions that follows from the property of the two operands. -/
theorem Expression.render_induct (P : Expression → Prop) (Q : Operand → Prop)
    (hexpr : ∀ e, P e → Q (.expr e))
    (hother : ∀ o, (∀ e, o ≠ .expr e) → Q o)
    (hmk : ∀ l op r bp fd, Q l → Q r → P (.mk l op r bp fd)) : ∀ e, P e :=
  @Expression.rec Q P (fun _ => True) (fun _ => True)
    (hother _ (fun _ h => Operand.noConfusion h))
    (fun e h => hexpr e h)
    (fun _ _ => hother _ (fun _ h => Operand.noConfusion h))
    (fun _ _ => hother _ (fun _ h => Operand.noConfusion h))
    (fun _ => hother _ (fun _ h => Operand.noConfusion h))
    (fun _ => hother _ (fun _ h => Operand.noConfusion h))
    (fun _ => hother _ (fun _ h => Operand.noConfusion h))
    (fun _ => hother _ (fun _ h => Operand.noConfusion h))
    (fun _ => hother _ (fun _ h => Operand.noConfusion h))
    (fun l op r bp fd hl hr => hmk l op r bp fd hl hr)
    (fun _ _ _ _ _ => trivial) trivial (fun _ _ _ _ => trivial)

/-- The loop of the `In` case returns a nil error. -/
theorem inQueries_err (left : Value) (ll : List Expression) (acc : List Value)
    (q : Value × Option GoError) (h : inQueries left ll acc = some q) : q.2 = none := by
  induction ll generalizing acc with
  | nil =>
    simp only [inQueries, Option.some.injEq] at h
    rw [← h]
  | cons x xs ih =>
    simp only [inQueries, makeQueryString] at h
    split at h
    · exact ih _ h
    · exact absurd h (by simp)

/-- The results of `makeLiteralOrQueryString` carry a nil error. -/
theorem makeLiteralOrQueryString_err (lit : String) (query : Bool) :
    (makeLiteralOrQueryString lit query).2 = none := by
  cases query <;> rfl

/-- The last statement of `Render` returns a nil error. -/
theorem returnLeft_err (e : Expression) (r : Ret Expression) (h : returnLeft e = some r) :
    r.err = none := by
  unfold returnLeft at h
  split at h
  · simp only [Option.some.injEq] at h
    rw [← h]
  · exact absurd h (by simp)

/-- The `Range` case over a boundary returns a nil error. -/
theorem renderRange_err (left : Value) (rb : RangeBoundary) (e : Expression)
    (r : Ret Expression) (h : renderRange left rb e = some r) : r.err = none := by
  unfold renderRange at h
  cases hl : left.asString with
  | none => simp [hl] at h
  | some f =>
    simp only [hl] at h
    cases h1 : isWild rb.Min <;> cases h2 : isWild rb.Max <;> cases h3 : rb.Inclusive <;>
      · simp [h1, h2, h3] at h
        rw [← h]

/-- The `Boost` and `Fuzzy` cases return a nil error. -/
theorem renderModifier_err (F : Fmt) (b : ElasticDSLDriver) (pq : Bool) (left : Value)
    (e : Expression) (r : Ret Expression) (h : renderModifier F b pq left e = some r) :
    r.err = none := by
  unfold renderModifier at h
  split at h
  · split at h
    · simp only [Option.some.injEq] at h
      rw [← h]
      exact makeLiteralOrQueryString_err _ _
    · simp only [makeQueryString, Option.some.injEq] at h
      rw [← h]
      exact wrapInHasChild_err _ _ _
    · exact absurd h (by simp)
  · exact returnLeft_err _ _ h

/-- The `switch` of `Render` returns a nil error. -/
theorem renderOp_err (F : Fmt) (b : ElasticDSLDriver) (pq : Bool) (left right : Value)
    (e : Expression) (r : Ret Expression) (h : renderOp F b pq left right e = some r) :
    r.err = none := by
  unfold renderOp at h
  split at h
  case h_3 =>
    split at h
    · simp only [makeQueryString, Option.some.injEq] at h
      rw [← h]
      exact wrapInHasChild_err _ _ _
    · exact absurd h (by simp)
  case h_4 =>
    split at h
    · simp only [makeQueryString, Option.some.injEq] at h
      rw [← h]
      rfl
    · exact absurd h (by simp)
  case h_6 =>
    split at h
    · exact renderRange_err _ _ _ _ h
    · exact returnLeft_err _ _ h
  case h_9 => exact renderModifier_err _ _ _ _ _ _ h
  case h_10 => exact renderModifier_err _ _ _ _ _ _ h
  case h_18 =>
    split at h
    · split at h
      · simp only [Option.map_eq_some'] at h
        obtain ⟨q, hq, hr⟩ := h
        rw [← hr]
        exact inQueries_err _ _ _ _ hq
      · exact returnLeft_err _ _ h
    · exact absurd h (by simp)
  case h_20 => exact returnLeft_err _ _ h
  all_goals
    first
      | (simp only [Option.some.injEq] at h
         rw [← h])
      | (simp only [Option.map_eq_some'] at h
         obtain ⟨l, _, hr⟩ := h
         rw [← hr]
         try exact makeLiteralOrQueryString_err _ _)

/-- No call of `Render` returns a non-nil error. -/
theorem Render_err_none (F : Fmt) (b : ElasticDSLDriver) (e : Expression) :
    ∀ (p : Option Expression) (r : Ret Expression), Render F b e p = some r → r.err = none := by
  refine Expression.render_induct
    (fun e => ∀ p r, Render F b e p = some r → r.err = none)
    (fun o => ∀ p r, serialize F b o p = some r → r.err = none) ?_ ?_ ?_ e
  · intro x ih p r h
    simp only [serialize] at h
    split at h
    · exact absurd h (by simp)
    · rename_i s err x1 hx
      simp only [Option.some.injEq] at h
      rw [← h]
      exact ih p _ hx
  · intro o ho p r h
    cases o with
    | expr x => exact absurd rfl (ho x)
    | _ =>
      simp only [serialize, Option.some.injEq] at h
      rw [← h]
  · intro l op rt bp fd hl hr p r h
    simp only [Render] at h
    split at h
    · exact absurd h (by simp)
    · rename_i s err l1 hs
      have := hl _ _ hs
      simp at this
    · split at h
      · exact absurd h (by simp)
      · rename_i s err r1 hs
        have := hr _ _ hs
        simp at this
      · exact renderOp_err _ _ _ _ _ _ _ h

/-- No call of `serialize` returns a non-nil error. -/
theorem serialize_err_none (F : Fmt) (b : ElasticDSLDriver) (o : Operand)
    (p : Option Expression) (r : Ret Operand) (h : serialize F b o p = some r) :
    r.err = none := by
  cases o with
  | expr x =>
    simp only [serialize] at h
    split at h
    · exact absurd h (by simp)
    · rename_i s err x1 hx
      simp only [Option.some.injEq] at h
      rw [← h]
      exact Render_err_none F b x p _ hx
  | _ =>
    simp only [serialize, Option.some.injEq] at h
    rw [← h]

/-- The operand that `serialize` leaves behind is of the kind it was given:
a string stays the same string, and only a boundary leaves a boundary. -/
theorem serialize_kind (F : Fmt) (b : ElasticDSLDriver) (o : Operand)
    (p : Option Expression) (r : Ret Operand) (h : serialize F b o p = some r) :
    (∀ s, r.tree = .str s → o = .str s ∧ r.s = .str s)
      ∧ ((∀ rb, o ≠ .boundary rb) → ∀ rb, r.tree ≠ .boundary rb) := by
  cases o with
  | expr x =>
    simp only [serialize] at h
    split at h
    · exact absurd h (by simp)
    · simp only [Option.some.injEq] at h
      rw [← h]
      exact ⟨fun s hs => by simp at hs, fun _ rb hrb => by simp at hrb⟩
  | boundary rb0 =>
    simp only [serialize, Option.some.injEq] at h
    rw [← h]
    exact ⟨fun s hs => by simp at hs, fun hne => absurd rfl (hne rb0)⟩
  | str s0 =>
    simp only [serialize, Option.some.injEq] at h
    rw [← h]
    refine ⟨fun s hs => ?_, fun _ rb hrb => by simp at hrb⟩
    simp only [Operand.str.injEq] at hs
    rw [hs]
    exact ⟨rfl, rfl⟩
  | _ =>
    simp only [serialize, Option.some.injEq] at h
    rw [← h]
    exact ⟨fun s hs => by simp at hs, fun _ rb hrb => by simp at hrb⟩

/-- The last statement of `Render` leaves the tree as it is. -/
theorem returnLeft_tree (e : Expression) (r : Ret Expression) (h : returnLeft e = some r) :
    r.tree = e := by
  unfold returnLeft at h
  split at h
  · simp only [Option.some.injEq] at h
    rw [← h]
  · exact absurd h (by simp)

/-- The `Range` case over a boundary leaves the tree as it is. -/
theorem renderRange_tree (left : Value) (rb : RangeBoundary) (e : Expression)
    (r : Ret Expression) (h : renderRange left rb e = some r) : r.tree = e := by
  unfold renderRange at h
  cases hl : left.asString with
  | none => simp [hl] at h
  | some f =>
    simp only [hl] at h
    cases h1 : isWild rb.Min <;> cases h2 : isWild rb.Max <;> cases h3 : rb.Inclusive <;>
      · simp [h1, h2, h3] at h
        rw [← h]

/-- Outside the `Boost` and `Fuzzy` cases the `switch` of `Render` leaves the
tree as it is. -/
theorem renderOp_tree (F : Fmt) (b : ElasticDSLDriver) (pq : Bool) (left right : Value)
    (e : Expression) (r : Ret Expression) (h : renderOp F b pq left right e = some r)
    (hB : e.Op ≠ .Boost) (hF : e.Op ≠ .Fuzzy) : r.tree = e := by
  unfold renderOp at h
  split at h
  case h_3 =>
    split at h
    · simp only [makeQueryString, Option.some.injEq] at h
      rw [← h]
      rfl
    · exact absurd h (by simp)
  case h_4 =>
    split at h
    · simp only [makeQueryString, Option.some.injEq] at h
      rw [← h]
      rfl
    · exact absurd h (by simp)
  case h_6 =>
    split at h
    · exact renderRange_tree _ _ _ _ h
    · exact returnLeft_tree _ _ h
  case h_9 => rename_i hop; exact absurd hop hB
  case h_10 => rename_i hop; exact absurd hop hF
  case h_18 =>
    split at h
    · split at h
      · simp only [Option.map_eq_some'] at h
        obtain ⟨q, hq, hr⟩ := h
        rw [← hr]
        rfl
      · exact returnLeft_tree _ _ h
    · exact absurd h (by simp)
  case h_20 => exact returnLeft_tree _ _ h
  all_goals
    first
      | (simp only [Option.some.injEq] at h
         rw [← h])
      | (simp only [Option.map_eq_some'] at h
         obtain ⟨l, _, hr⟩ := h
         rw [← hr]
         try rfl)

/-- A tree on which `Render` visits no `Boost` and no `Fuzzy` node is left as
it is. -/
theorem Render_tree_unchanged (F : Fmt) (b : ElasticDSLDriver) (e : Expression) :
    e.modifierFree = true →
      ∀ (p : Option Expression) (r : Ret Expression), Render F b e p = some r → r.tree = e := by
  refine Expression.render_induct
    (fun e => e.modifierFree = true → ∀ p r, Render F b e p = some r → r.tree = e)
    (fun o => o.modifierFree = true → ∀ p r, serialize F b o p = some r → r.tree = o)
    ?_ ?_ ?_ e
  · intro x ih hm p r h
    simp only [serialize] at h
    split at h
    · exact absurd h (by simp)
    · rename_i s err x1 hx
      simp only [Option.some.injEq] at h
      rw [← h]
      have := ih (by simpa [Operand.modifierFree] using hm) p _ hx
      simp only at this
      rw [this]
  · intro o ho _ p r h
    cases o with
    | expr x => exact absurd rfl (ho x)
    | _ =>
      simp only [serialize, Option.some.injEq] at h
      rw [← h]
  · intro l op rt bp fd hl hr hm p r h
    simp only [Expression.modifierFree, Bool.and_eq_true, bne_iff_ne, ne_eq] at hm
    obtain ⟨⟨⟨hB, hF⟩, hml⟩, hmr⟩ := hm
    simp only [Render] at h
    split at h
    · exact absurd h (by simp)
    · rename_i s err l1 hs
      have := serialize_err_none _ _ _ _ _ hs
      simp at this
    · rename_i left l1 hs
      have e1 := hl hml _ _ hs
      simp only at e1
      split at h
      · exact absurd h (by simp)
      · rename_i s err r1 hs2
        have := serialize_err_none _ _ _ _ _ hs2
        simp at this
      · rename_i right r1 hs2
        have e2 := hr hmr _ _ hs2
        simp only at e2
        rw [e1, e2] at h
        exact renderOp_tree _ _ _ _ _ _ _ h hB hF

/-- The four single-sided comparisons over a literal bound: the range node
over the serialized column with the text of the bound in the one slot. -/
theorem Render_single_sided (F : Fmt) (b : ElasticDSLDriver) (f : String) (v : Operand)
    (p : Option Expression) (hv : v.isLiteral = true) :
    Ret.doc (Render F b (GREATER f v) p)
        = some (.range (ReplaceAllSpace f "\\ ") .nil .nil (.str (sprintOperand F true v)) .nil,
            none)
      ∧ Ret.doc (Render F b (GREATEREQ f v) p)
        = some (.range (ReplaceAllSpace f "\\ ") .nil .nil .nil (.str (sprintOperand F true v)),
            none)
      ∧ Ret.doc (Render F b (LESS f v) p)
        = some (.range (ReplaceAllSpace f "\\ ") (.str (sprintOperand F true v)) .nil .nil .nil,
            none)
      ∧ Ret.doc (Render F b (LESSEQ f v) p)
        = some (.range (ReplaceAllSpace f "\\ ") .nil (.str (sprintOperand F true v)) .nil .nil,
            none) := by
  refine ⟨?_, ?_, ?_, ?_⟩
  · unfold GREATER
    rw [Render_node F b (.column f) (literalToExpr v) _ _ .Greater GoFloat.zero 0 p _ _
      (serialize_column F b f _) (serialize_literal F b v hv _ rfl)]
    rfl
  · unfold GREATEREQ
    rw [Render_node F b (.column f) (literalToExpr v) _ _ .GreaterEq GoFloat.zero 0 p _ _
      (serialize_column F b f _) (serialize_literal F b v hv _ rfl)]
    rfl
  · unfold LESS
    rw [Render_node F b (.column f) (literalToExpr v) _ _ .Less GoFloat.zero 0 p _ _
      (serialize_column F b f _) (serialize_literal F b v hv _ rfl)]
    rfl
  · unfold LESSEQ
    rw [Render_node F b (.column f) (literalToExpr v) _ _ .LessEq GoFloat.zero 0 p _ _
      (serialize_column F b f _) (serialize_literal F b v hv _ rfl)]
    rfl

/-- With the nil or the empty mapping `wrapInHasChild` hands the query back. -/
theorem wrapInHasChild_no_mapping (b : ElasticDSLDriver)
    (hb : b.Fields = none ∨ b.Fields = some []) (field : String) (query : Value) :
    b.wrapInHasChild field query = (query, none) := by
  unfold ElasticDSLDriver.wrapInHasChild
  rcases hb with h | h
  · rw [h]
  · rw [h]
    rfl

/-- The loop of the `In` case adds no `has_child` node. -/
theorem inQueries_hasChildFree (left : Value) (ll : List Expression) (acc : List Value)
    (q : Value × Option GoError) (hacc : elemsHasChildFree acc = true)
    (h : inQueries left ll acc = some q) : q.1.hasChildFree = true := by
  induction ll generalizing acc with
  | nil =>
    simp only [inQueries, Option.some.injEq] at h
    rw [← h]
    simp [Value.hasChildFree, slotHasChildFree, hacc]
  | cons x xs ih =>
    simp only [inQueries, makeQueryString] at h
    split at h
    · refine ih _ ?_ h
      clear h ih
      induction acc with
      | nil => simp [elemsHasChildFree, Value.hasChildFree]
      | cons a as iha =>
        simp only [elemsHasChildFree, Bool.and_eq_true] at hacc
        simp [elemsHasChildFree, hacc.1, iha hacc.2]
    · exact absurd h (by simp)

/-- With the nil or the empty mapping the `switch` of `Render` adds no
`has_child` node to the rendered operands. -/
theorem renderOp_hasChildFree (F : Fmt) (b : ElasticDSLDriver)
    (hb : b.Fields = none ∨ b.Fields = some []) (pq : Bool) (left right : Value)
    (e : Expression) (r : Ret Expression) (hl : left.hasChildFree = true)
    (hr : right.hasChildFree = true) (h : renderOp F b pq left right e = some r) :
    r.s.hasChildFree = true := by
  have hq : ∀ (l : String) (q : Bool), (makeLiteralOrQueryString l q).1.hasChildFree = true := by
    intro l q
    cases q <;> rfl
  have hret : ∀ r, returnLeft e = some r → r.s.hasChildFree = true := by
    intro r h
    unfold returnLeft at h
    split at h
    · simp only [Option.some.injEq] at h
      rw [← h]
      rfl
    · exact absurd h (by simp)
  unfold renderOp at h
  split at h
  case h_3 =>
    split at h
    · simp only [makeQueryString, Option.some.injEq, wrapInHasChild_no_mapping b hb] at h
      rw [← h]
      rfl
    · exact absurd h (by simp)
  case h_4 =>
    split at h
    · simp only [makeQueryString, Option.some.injEq] at h
      rw [← h]
      rfl
    · exact absurd h (by simp)
  case h_6 =>
    split at h
    · rename_i rb _
      unfold renderRange at h
      cases hls : left.asString with
      | none => simp [hls] at h
      | some f =>
        simp only [hls] at h
        cases h1 : isWild rb.Min <;> cases h2 : isWild rb.Max <;> cases h3 : rb.Inclusive <;>
          · simp [h1, h2, h3] at h
            rw [← h]
            rfl
    · exact hret _ h
  case h_9 =>
    unfold renderModifier at h
    split at h
    · split at h
      · simp only [Option.some.injEq] at h
        rw [← h]
        exact hq _ _
      · simp only [makeQueryString, Option.some.injEq, wrapInHasChild_no_mapping b hb] at h
        rw [← h]
        rfl
      · exact absurd h (by simp)
    · exact hret _ h
  case h_10 =>
    unfold renderModifier at h
    split at h
    · split at h
      · simp only [Option.some.injEq] at h
        rw [← h]
        exact hq _ _
      · simp only [makeQueryString, Option.some.injEq, wrapInHasChild_no_mapping b hb] at h
        rw [← h]
        rfl
      · exact absurd h (by simp)
    · exact hret _ h
  case h_18 =>
    split at h
    · split at h
      · simp only [Option.map_eq_some'] at h
        obtain ⟨q, hq1, hr1⟩ := h
        rw [← hr1]
        exact inQueries_hasChildFree _ _ [] _ rfl hq1
      · exact hret _ h
    · exact absurd h (by simp)
  case h_20 => exact hret _ h
  all_goals
    first
      | (simp only [Option.some.injEq] at h
         rw [← h]
         simp [Value.hasChildFree, slotHasChildFree, elemsHasChildFree, hl, hr])
      | (simp only [Option.map_eq_some'] at h
         obtain ⟨l, _, hr1⟩ := h
         rw [← hr1]
         first
           | exact hq _ _
           | simp [Value.hasChildFree, hr, Value.nil])

/-- With the nil or the empty mapping no rendered value holds a `has_child`
node, at any depth. -/
theorem Render_hasChildFree (F : Fmt) (b : ElasticDSLDriver)
    (hb : b.Fields = none ∨ b.Fields = some []) (e : Expression) :
    ∀ (p : Option Expression) (r : Ret Expression),
      Render F b e p = some r → r.s.hasChildFree = true := by
  refine Expression.render_induct
    (fun e => ∀ p r, Render F b e p = some r → r.s.hasChildFree = true)
    (fun o => ∀ p r, serialize F b o p = some r → r.s.hasChildFree = true) ?_ ?_ ?_ e
  · intro x ih p r h
    simp only [serialize] at h
    split at h
    · exact absurd h (by simp)
    · rename_i s err x1 hx
      simp only [Option.some.injEq] at h
      rw [← h]
      exact ih p _ hx
  · intro o ho p r h
    cases o with
    | expr x => exact absurd rfl (ho x)
    | _ =>
      simp only [serialize, Option.some.injEq] at h
      rw [← h]
      rfl
  · intro l op rt bp fd hl hr p r h
    simp only [Render] at h
    split at h
    · exact absurd h (by simp)
    · rename_i s err l1 hs
      have := serialize_err_none _ _ _ _ _ hs
      simp at this
    · rename_i left l1 hs
      split at h
      · exact absurd h (by simp)
      · rename_i s err r1 hs2
        have := serialize_err_none _ _ _ _ _ hs2
        simp at this
      · rename_i right r1 hs2
        exact renderOp_hasChildFree F b hb _ _ _ _ _ (hl _ _ hs) (hr _ _ hs2) h

/-- A tree with no `Boost` and no `Fuzzy` node has none on the path of
`Render`. -/
theorem noModifier_modifierFree (e : Expression) :
    e.noModifier = true → e.modifierFree = true := by
  refine Expression.render_induct
    (fun e => e.noModifier = true → e.modifierFree = true)
    (fun o => o.noModifier = true → o.modifierFree = true) ?_ ?_ ?_ e
  · intro x ih h
    simp only [Operand.noModifier] at h
    simp only [Operand.modifierFree]
    exact ih h
  · intro o ho _
    cases o with
    | expr x => exact absurd rfl (ho x)
    | _ => rfl
  · intro l op r bp fd hl hr h
    simp only [Expression.noModifier, Bool.and_eq_true] at h
    obtain ⟨⟨⟨hB, hF⟩, h1⟩, h2⟩ := h
    simp only [Expression.modifierFree, Bool.and_eq_true]
    exact ⟨⟨⟨hB, hF⟩, hl h1⟩, hr h2⟩

/-- Over an operand that is no clause the `Boost` and `Fuzzy` cases leave the
tree as it is. -/
theorem renderModifier_tree (F : Fmt) (b : ElasticDSLDriver) (pq : Bool) (left : Value)
    (e : Expression) (r : Ret Expression) (h : renderModifier F b pq left e = some r)
    (hc : e.Left.isClause = false) : r.tree = e := by
  unfold renderModifier at h
  split at h
  · split at h
    · simp only [Option.some.injEq] at h
      rw [← h]
      rfl
    · simp [Expression.Left, Operand.isClause] at hc
    · exact absurd h (by simp)
  · exact returnLeft_tree _ _ h

/-- Where the node is no `Boost` or `Fuzzy` node over a clause the `switch` of
`Render` leaves the tree as it is. -/
theorem renderOp_tree_writeFree (F : Fmt) (b : ElasticDSLDriver) (pq : Bool)
    (left right : Value) (e : Expression) (r : Ret Expression)
    (h : renderOp F b pq left right e = some r)
    (hw : ((e.Op == .Boost || e.Op == .Fuzzy) && e.Left.isClause) = false) : r.tree = e := by
  by_cases hB : e.Op = .Boost
  · have hc : e.Left.isClause = false := by simpa [hB] using hw
    simp only [renderOp, hB] at h
    exact renderModifier_tree _ _ _ _ _ _ h hc
  · by_cases hF : e.Op = .Fuzzy
    · have hc : e.Left.isClause = false := by simpa [hF] using hw
      simp only [renderOp, hF] at h
      exact renderModifier_tree _ _ _ _ _ _ h hc
    · exact renderOp_tree _ _ _ _ _ _ _ h hB hF

/-- A tree on which `Render` visits no `Boost` or `Fuzzy` node over a clause
is left as it is. -/
theorem Render_tree_writeFree (F : Fmt) (b : ElasticDSLDriver) (e : Expression) :
    e.writeFree = true →
      ∀ (p : Option Expression) (r : Ret Expression), Render F b e p = some r → r.tree = e := by
  refine Expression.render_induct
    (fun e => e.writeFree = true → ∀ p r, Render F b e p = some r → r.tree = e)
    (fun o => o.writeFree = true → ∀ p r, serialize F b o p = some r → r.tree = o)
    ?_ ?_ ?_ e
  · intro x ih hm p r h
    simp only [serialize] at h
    split at h
    · exact absurd h (by simp)
    · rename_i s err x1 hx
      simp only [Option.some.injEq] at h
      rw [← h]
      have := ih (by simpa [Operand.writeFree] using hm) p _ hx
      simp only at this
      rw [this]
  · intro o ho _ p r h
    cases o with
    | expr x => exact absurd rfl (ho x)
    | _ =>
      simp only [serialize, Option.some.injEq] at h
      rw [← h]
  · intro l op rt bp fd hl hr hm p r h
    simp only [Expression.writeFree, Bool.and_eq_true, Bool.not_eq_true'] at hm
    obtain ⟨⟨hw, hml⟩, hmr⟩ := hm
    simp only [Render] at h
    split at h
    · exact absurd h (by simp)
    · rename_i s err l1 hs
      have := serialize_err_none _ _ _ _ _ hs
      simp at this
    · rename_i left l1 hs
      have e1 := hl hml _ _ hs
      simp only at e1
      split at h
      · exact absurd h (by simp)
      · rename_i s err r1 hs2
        have := serialize_err_none _ _ _ _ _ hs2
        simp at this
      · rename_i right r1 hs2
        have e2 := hr hmr _ _ hs2
        simp only at e2
        rw [e1, e2] at h
        exact renderOp_tree_writeFree _ _ _ _ _ _ _ h hw

/-! ## The claims -/

/-- C1: rendering is compositional over And and Or. For renderable `X` and
`Y` (each rendered on its own returns a value and a nil error) and every
mapping, `AND(X, Y)` renders to the bool node whose `must` array is exactly
`[Render X, Render Y]`, in that order, and `OR(X, Y)` to the bool node whose
`should` array is exactly these two values; the children are kept as they
are, nested nodes included, so the array has exactly two elements. -/
theorem C1_and_or_compositional (F : Fmt) (b : ElasticDSLDriver) (X Y : Expression)
    (vx vy : Value)
    (hX : Ret.doc (Render F b X none) = some (vx, none))
    (hY : Ret.doc (Render F b Y none) = some (vy, none)) (p : Option Expression) :
    Ret.doc (Render F b (AND (.expr X) (.expr Y)) p)
        = some (.bool (some [vx, vy]) none none none, none)
      ∧ Ret.doc (Render F b (OR (.expr X) (.expr Y)) p)
        = some (.bool none (some [vx, vy]) none none, none) := by
  obtain ⟨tx, hx⟩ := doc_eq_some _ _ _ hX
  obtain ⟨ty, hy⟩ := doc_eq_some _ _ _ hY
  constructor
  · have h1 := Render_parent F b X (some (AND (.expr X) (.expr Y))) none rfl
    have h2 := Render_parent F b Y (some (AND (.expr X) (.expr Y))) none rfl
    rw [hx] at h1
    rw [hy] at h2
    simp only [AND, literalToExpr] at h1 h2 ⊢
    simp only [Render, serialize, h1, h2]
    rfl
  · have h1 := Render_parent F b X (some (OR (.expr X) (.expr Y))) none rfl
    have h2 := Render_parent F b Y (some (OR (.expr X) (.expr Y))) none rfl
    rw [hx] at h1
    rw [hy] at h2
    simp only [OR, literalToExpr] at h1 h2 ⊢
    simp only [Render, serialize, h1, h2]
    rfl

/-- C1 at the tree of the test `nested_and`: `a:5 AND (b:5 AND c:foo)`. -/
theorem C1_and_or_compositional_witness :
    Ret.doc (Render Fmt.sample ⟨none⟩ (Eq "a" (.int 5)) none)
        = some (.queryString ["a"] true "5", none)
      ∧ Ret.doc (Render Fmt.sample ⟨none⟩
          (AND (.expr (Eq "b" (.int 5))) (.expr (Eq "c" (.str "foo")))) none)
        = some (.bool (some [.queryString ["b"] true "5", .queryString ["c"] true "foo"])
            none none none, none)
      ∧ Ret.doc (Render Fmt.sample ⟨none⟩ (AND (.expr (Eq "a" (.int 5)))
          (.expr (AND (.expr (Eq "b" (.int 5))) (.expr (Eq "c" (.str "foo")))))) none)
        = some (.bool (some [.queryString ["a"] true "5",
            .bool (some [.queryString ["b"] true "5", .queryString ["c"] true "foo"])
              none none none]) none none none, none) :=
  ⟨rfl, rfl,
    (C1_and_or_compositional Fmt.sample ⟨none⟩ (Eq "a" (.int 5))
      (AND (.expr (Eq "b" (.int 5))) (.expr (Eq "c" (.str "foo")))) _ _ rfl rfl none).1⟩

/-- C2, the code at the failing input: the field name `a b` is not a key of
the mapping whose one entry maps `a\ b` to `answer`, and `Eq("a b", "x")` still renders to a
`has_child` node, because the mapping is searched for the escaped name. -/
theorem C2_escaped_name_is_looked_up :
    List.lookup "a b" [("a\\ b", "answer")] = none
      ∧ Ret.doc (Render Fmt.sample ⟨some [("a\\ b", "answer")]⟩ (Eq "a b" (.str "x")) none)
        = some (.hasChild (.queryString ["a\\ b"] true "x") "answer", none) :=
  ⟨by decide, rfl⟩

/-- C3, the code at the failing input: the field name `a b` is a key of the
mapping whose one entry maps `a b` to `answer`, and `Eq("a b", "x")` renders to the bare
`query_string` node, with no `has_child` wrapper. -/
theorem C3_key_with_space_not_wrapped :
    List.lookup "a b" [("a b", "answer")] = some "answer"
      ∧ Ret.doc (Render Fmt.sample ⟨some [("a b", "answer")]⟩ (Eq "a b" (.str "x")) none)
        = some (.queryString ["a\\ b"] true "x", none) :=
  ⟨by decide, rfl⟩

/-- C4 as stated fails for a field name with a space: `Rang("a b", 1, 10,
true)` renders to a range node keyed by `a\ b`, the escaped name, not by
`a b`. -/
theorem C4_counterexample :
    Ret.doc (Render Fmt.sample ⟨none⟩ (Rang "a b" (.int 1) (.int 10) true) none)
        = some (.range "a\\ b" .nil (.raw (.int 10)) .nil (.raw (.int 1)), none)
      ∧ Ret.doc (Render Fmt.sample ⟨none⟩ (Rang "a b" (.int 1) (.int 10) true) none)
        ≠ some (.range "a b" .nil (.raw (.int 10)) .nil (.raw (.int 1)), none) := by
  refine ⟨rfl, ?_⟩
  rw [show Ret.doc (Render Fmt.sample ⟨none⟩ (Rang "a b" (.int 1) (.int 10) true) none)
    = some (.range "a\\ b" .nil (.raw (.int 10)) .nil (.raw (.int 1)), none) from rfl]
  simp

/-- C4, amended: for a field `f` and two bounded bounds (literal values other
than the omitted bound `*`), `Rang(f, min, max, inclusive)` renders to a
range node keyed by `f` with every space escaped as a backslash and a space
(by `f` itself when `f` has no space), with exactly two bound keys:
`lte = max` and `gte = min` when inclusive, `lt = max` and `gt = min` when
not; the values are the boundary operands themselves, so a number stays a
number and a text stays a text. -/
theorem C4_range_bounded (F : Fmt) (b : ElasticDSLDriver) (f : String) (min max : Operand)
    (p : Option Expression) (hmin : min.isLiteral = true) (hmax : max.isLiteral = true)
    (hmin2 : min ≠ .str "*") (hmax2 : max ≠ .str "*") :
    Ret.doc (Render F b (Rang f min max true) p)
        = some (.range (ReplaceAllSpace f "\\ ") .nil (.raw max) .nil (.raw min), none)
      ∧ Ret.doc (Render F b (Rang f min max false) p)
        = some (.range (ReplaceAllSpace f "\\ ") (.raw max) .nil (.raw min) .nil, none)
      ∧ (Value.range (ReplaceAllSpace f "\\ ") .nil (.raw max) .nil (.raw min)).rangeKeys
        = [("lte", .raw max), ("gte", .raw min)]
      ∧ (Value.range (ReplaceAllSpace f "\\ ") (.raw max) .nil (.raw min) .nil).rangeKeys
        = [("lt", .raw max), ("gt", .raw min)] := by
  obtain ⟨e1, w1⟩ := rangeBound_literal min hmin hmin2
  obtain ⟨e2, w2⟩ := rangeBound_literal max hmax hmax2
  have n1 : (Value.raw min).isNil = false := by
    cases min <;> simp [Operand.isLiteral] at hmin <;> rfl
  have n2 : (Value.raw max).isNil = false := by
    cases max <;> simp [Operand.isLiteral] at hmax <;> rfl
  have n0 : Value.nil.isNil = true := rfl
  refine ⟨?_, ?_, ?_, ?_⟩
  · simp [Rang, e1, e2, Render, serialize, renderOp, Expression.Op, Expression.Right,
      renderRange, RangeBoundary.Min, RangeBoundary.Max, RangeBoundary.Inclusive, w1, w2,
      Value.asString, Value.str, Ret.doc]
  · simp [Rang, e1, e2, Render, serialize, renderOp, Expression.Op, Expression.Right,
      renderRange, RangeBoundary.Min, RangeBoundary.Max, RangeBoundary.Inclusive, w1, w2,
      Value.asString, Value.str, Ret.doc]
  · simp [Value.rangeKeys, List.filter, n0, n1, n2]
  · simp [Value.rangeKeys, List.filter, n0, n1, n2]

/-- C4 (amended) at the tree of the test `int_range`, at the exclusive range
over `a b`, and at the bound keys of the two. -/
theorem C4_range_bounded_witness :
    (Operand.int 1).isLiteral = true ∧ (Operand.int 10).isLiteral = true
      ∧ Operand.int 1 ≠ .str "*" ∧ Operand.int 10 ≠ .str "*"
      ∧ Ret.doc (Render Fmt.sample ⟨none⟩ (Rang "a" (.int 1) (.int 10) true) none)
        = some (.range "a" .nil (.raw (.int 10)) .nil (.raw (.int 1)), none)
      ∧ Ret.doc (Render Fmt.sample ⟨none⟩ (Rang "a b" (.int 1) (.int 10) false) none)
        = some (.range "a\\ b" (.raw (.int 10)) .nil (.raw (.int 1)) .nil, none)
      ∧ (Value.range "a" .nil (.raw (.int 10)) .nil (.raw (.int 1))).rangeKeys
        = [("lte", .raw (.int 10)), ("gte", .raw (.int 1))]
      ∧ (Value.range "a\\ b" (.raw (.int 10)) .nil (.raw (.int 1)) .nil).rangeKeys
        = [("lt", .raw (.int 10)), ("gt", .raw (.int 1))] :=
  ⟨rfl, rfl, by simp, by simp,
    (C4_range_bounded Fmt.sample ⟨none⟩ "a" (.int 1) (.int 10) none rfl rfl
      (by simp) (by simp)).1,
    (C4_range_bounded Fmt.sample ⟨none⟩ "a b" (.int 1) (.int 10) none rfl rfl
      (by simp) (by simp)).2.1,
    (C4_range_bounded Fmt.sample ⟨none⟩ "a" (.int 1) (.int 10) none rfl rfl
      (by simp) (by simp)).2.2.1,
    (C4_range_bounded Fmt.sample ⟨none⟩ "a b" (.int 1) (.int 10) none rfl rfl
      (by simp) (by simp)).2.2.2⟩

/-- C5, the code at the failing input: with both bounds unbounded,
`Rang("a", "*", "*", inclusive)` renders to a range node that carries one
bound key (`lte` when inclusive, `lt` when not) whose value is the `Wild`
sentinel of `Max`. -/
theorem C5_both_unbounded_emits_sentinel :
    isWild (rangeBound (.str "*")) = true
      ∧ Ret.doc (Render Fmt.sample ⟨none⟩ (Rang "a" (.str "*") (.str "*") true) none)
        = some (.range "a" .nil (.raw (.expr (WILD (.str "*")))) .nil .nil, none)
      ∧ Ret.doc (Render Fmt.sample ⟨none⟩ (Rang "a" (.str "*") (.str "*") false) none)
        = some (.range "a" (.raw (.expr (WILD (.str "*")))) .nil .nil .nil, none)
      ∧ (Value.range "a" .nil (.raw (.expr (WILD (.str "*")))) .nil .nil).rangeKeys
        = [("lte", .raw (.expr (WILD (.str "*"))))] :=
  ⟨rfl, rfl, rfl, rfl⟩

/-- C6 as stated fails for a field name with a space: `LESS("a b", 10)`
renders to a range node keyed by `a\ b`, the escaped name, not by `a b`. -/
theorem C6_counterexample :
    Ret.doc (Render Fmt.sample ⟨none⟩ (LESS "a b" (.int 10)) none)
        = some (.range "a\\ b" (.str "10") .nil .nil .nil, none)
      ∧ Ret.doc (Render Fmt.sample ⟨none⟩ (LESS "a b" (.int 10)) none)
        ≠ some (.range "a b" (.str "10") .nil .nil .nil, none) := by
  refine ⟨rfl, ?_⟩
  rw [show Ret.doc (Render Fmt.sample ⟨none⟩ (LESS "a b" (.int 10)) none)
    = some (.range "a\\ b" (.str "10") .nil .nil .nil, none) from rfl]
  simp

/-- C6, amended: for a field `f` and a literal bound `v` (integer, float or
text), `GREATER`, `GREATEREQ`, `LESS` and `LESSEQ` of `(f, v)` render to a
range node keyed by `f` with every space escaped as a backslash and a space
(by `f` itself when `f` has no space), with exactly one bound
key - `gt`, `gte`, `lt`, `lte` in turn - whose value is always a string, the
`%v` text of `v` (`LESS("a", 10)` gives `"lt": "10"`). -/
theorem C6_single_sided_bound_is_text (F : Fmt) (b : ElasticDSLDriver) (f : String)
    (v : Operand) (p : Option Expression) (hv : v.isLiteral = true) :
    Ret.doc (Render F b (GREATER f v) p)
        = some (.range (ReplaceAllSpace f "\\ ") .nil .nil (.str (sprintOperand F true v)) .nil,
            none)
      ∧ Ret.doc (Render F b (GREATEREQ f v) p)
        = some (.range (ReplaceAllSpace f "\\ ") .nil .nil .nil (.str (sprintOperand F true v)),
            none)
      ∧ Ret.doc (Render F b (LESS f v) p)
        = some (.range (ReplaceAllSpace f "\\ ") (.str (sprintOperand F true v)) .nil .nil .nil,
            none)
      ∧ Ret.doc (Render F b (LESSEQ f v) p)
        = some (.range (ReplaceAllSpace f "\\ ") .nil (.str (sprintOperand F true v)) .nil .nil,
            none)
      ∧ (∀ k t, (Value.range k .nil .nil (.str t) .nil).rangeKeys = [("gt", .str t)]
          ∧ (Value.range k .nil .nil .nil (.str t)).rangeKeys = [("gte", .str t)]
          ∧ (Value.range k (.str t) .nil .nil .nil).rangeKeys = [("lt", .str t)]
          ∧ (Value.range k .nil (.str t) .nil .nil).rangeKeys = [("lte", .str t)]) := by
  refine ⟨?_, ?_, ?_, ?_, fun k t => ⟨rfl, rfl, rfl, rfl⟩⟩
  · unfold GREATER
    rw [Render_node F b (.column f) (literalToExpr v) _ _ .Greater GoFloat.zero 0 p _ _
      (serialize_column F b f _) (serialize_literal F b v hv _ rfl)]
    rfl
  · unfold GREATEREQ
    rw [Render_node F b (.column f) (literalToExpr v) _ _ .GreaterEq GoFloat.zero 0 p _ _
      (serialize_column F b f _) (serialize_literal F b v hv _ rfl)]
    rfl
  · unfold LESS
    rw [Render_node F b (.column f) (literalToExpr v) _ _ .Less GoFloat.zero 0 p _ _
      (serialize_column F b f _) (serialize_literal F b v hv _ rfl)]
    rfl
  · unfold LESSEQ
    rw [Render_node F b (.column f) (literalToExpr v) _ _ .LessEq GoFloat.zero 0 p _ _
      (serialize_column F b f _) (serialize_literal F b v hv _ rfl)]
    rfl

/-- C6 (amended) at the trees of the tests `lt` and `gte`, and at `GREATER`
over the field `a b` with a text bound. -/
theorem C6_single_sided_bound_is_text_witness :
    (Operand.int 10).isLiteral = true ∧ (Operand.str "x").isLiteral = true
      ∧ Ret.doc (Render Fmt.sample ⟨none⟩ (LESS "a" (.int 10)) none)
        = some (.range "a" (.str "10") .nil .nil .nil, none)
      ∧ Ret.doc (Render Fmt.sample ⟨none⟩ (GREATEREQ "a" (.int 10)) none)
        = some (.range "a" .nil .nil .nil (.str "10"), none)
      ∧ Ret.doc (Render Fmt.sample ⟨none⟩ (GREATER "a b" (.str "x")) none)
        = some (.range "a\\ b" .nil .nil (.str "x") .nil, none) :=
  ⟨rfl, rfl, (C6_single_sided_bound_is_text Fmt.sample ⟨none⟩ "a" (.int 10) none rfl).2.2.1,
    (C6_single_sided_bound_is_text Fmt.sample ⟨none⟩ "a" (.int 10) none rfl).2.1,
    (C6_single_sided_bound_is_text Fmt.sample ⟨none⟩ "a b" (.str "x") none rfl).1⟩

/-- C7 as stated fails twice: for the field name `a b` the `fields` array
holds the escaped name `a\ b`, not `a b`; and a list with a `Literal` member
that holds a number, as in `IN("a", LIST(Lit("foo"), Lit(5)))`, makes
`Render` abort on the assertion `query.Left.(string)`. -/
theorem C7_counterexample :
    Ret.doc (Render Fmt.sample ⟨none⟩ (IN "a b" (LIST [Lit (.str "foo")])) none)
        = some (.bool none (some [.queryString ["a\\ b"] true "foo"]) none none, none)
      ∧ Ret.doc (Render Fmt.sample ⟨none⟩ (IN "a b" (LIST [Lit (.str "foo")])) none)
        ≠ some (.bool none (some [.queryString ["a b"] true "foo"]) none none, none)
      ∧ Render Fmt.sample ⟨none⟩ (IN "a" (LIST [Lit (.str "foo"), Lit (.int 5)])) none
        = none := by
  refine ⟨rfl, ?_, rfl⟩
  rw [show Ret.doc (Render Fmt.sample ⟨none⟩ (IN "a b" (LIST [Lit (.str "foo")])) none)
    = some (.bool none (some [.queryString ["a\\ b"] true "foo"]) none none, none) from rfl]
  simp

/-- C7, amended: for a field `f`, every mapping (also one with the key `f`)
and every list of `Literal` members that hold the texts `t1 .. tn`,
`IN(f, LIST(..))` renders to the bool node whose `should` array has exactly
`n` elements, the i-th the `query_string` node whose `fields` is `f` with
every space escaped as a backslash and a space (`f` itself when `f` has no
space), lenient, with query `ti`, in list order and with no `has_child`
wrapper; the empty list gives the empty `should` array. -/
theorem C7_in_list_should_array (F : Fmt) (b : ElasticDSLDriver) (f : String)
    (ts : List String) (p : Option Expression) :
    Ret.doc (Render F b (IN f (LIST (ts.map fun t => Lit (.str t)))) p)
        = some (.bool none
            (some (ts.map fun t => .queryString [ReplaceAllSpace f "\\ "] true t))
            none none, none)
      ∧ (ts.map fun t => Value.queryString [ReplaceAllSpace f "\\ "] true t).length
        = ts.length
      ∧ Ret.doc (Render F b (IN f (LIST [])) p) = some (.bool none (some []) none none, none) := by
  have h := inQueries_lits (ReplaceAllSpace f "\\ ") ts []
  refine ⟨?_, by simp, rfl⟩
  simp only [IN, LIST, Render, serialize, renderOp, Expression.Op, Expression.Right,
    Expression.Left, h]
  simp [Ret.doc, Ret.of]

/-- C7 (amended) at the tree of the test `in_list` and at the empty list over
the field `a b`. -/
theorem C7_in_list_should_array_witness :
    Ret.doc (Render Fmt.sample ⟨some [("a", "answer")]⟩
        (IN "a" (LIST [Lit (.str "foo"), Lit (.str "baz"), Lit (.str "bar")])) none)
        = some (.bool none (some [.queryString ["a"] true "foo",
            .queryString ["a"] true "baz", .queryString ["a"] true "bar"]) none none, none)
      ∧ Ret.doc (Render Fmt.sample ⟨none⟩ (IN "a b" (LIST [])) none)
        = some (.bool none (some []) none none, none) :=
  ⟨(C7_in_list_should_array Fmt.sample ⟨some [("a", "answer")]⟩ "a" ["foo", "baz", "bar"]
      none).1,
    (C7_in_list_should_array Fmt.sample ⟨none⟩ "a b" [] none).2.2⟩

/-- C8: a `Literal`, `Wild` or `Regexp` leaf with text `t` renders by its
parent only: with no parent, or under `And`, `Or`, `Not`, `Must` or
`MustNot`, as the `query_string` node with fields `["*"]`, lenient, query
`t`; under a field-scoping parent (`Equals`, `Like`, `Range`, `Greater`,
`GreaterEq`, `Less`, `LessEq`, `In`, `Boost`, `Fuzzy`, `Regexp`, `Wild`) as
the raw string `t`. -/
theorem C8_leaf_by_parent (F : Fmt) (b : ElasticDSLDriver) (t : String) (op : Operator)
    (bp : GoFloat) (fd : Int) (hop : op = .Literal ∨ op = .Wild ∨ op = .Regexp) :
    (∀ p : Option Expression,
        (p = none ∨ ∃ q, p = some q ∧
          (q.Op = .And ∨ q.Op = .Or ∨ q.Op = .Not ∨ q.Op = .Must ∨ q.Op = .MustNot)) →
        Ret.doc (Render F b (.mk (.str t) op .nil bp fd) p)
          = some (.queryString ["*"] true t, none))
      ∧ (∀ q : Expression,
        (q.Op = .Equals ∨ q.Op = .Like ∨ q.Op = .Range ∨ q.Op = .Greater ∨
          q.Op = .GreaterEq ∨ q.Op = .Less ∨ q.Op = .LessEq ∨ q.Op = .In ∨
          q.Op = .Boost ∨ q.Op = .Fuzzy ∨ q.Op = .Regexp ∨ q.Op = .Wild) →
        Ret.doc (Render F b (.mk (.str t) op .nil bp fd) (some q)) = some (.str t, none)) := by
  have key : ∀ p, Ret.doc (Render F b (.mk (.str t) op .nil bp fd) p)
      = some (if pEq p then .str t else .queryString ["*"] true t, none) := by
    intro p
    rcases hop with h | h | h <;> subst h <;>
      cases hp : pEq p <;>
      simp [Render, serialize, renderOp, Expression.Op, Value.asString, Value.str, hp,
        makeLiteralOrQueryString, makeQueryString, Ret.of, Ret.doc]
  constructor
  · intro p hp
    rw [key]
    have : pEq p = false := by
      rcases hp with h | ⟨q, h, hq⟩
      · subst h
        rfl
      · subst h
        rcases hq with h | h | h | h | h <;> simp [pEq, h]
    simp [this]
  · intro q hq
    rw [key]
    have : pEq (some q) = true := by
      rcases hq with h | h | h | h | h | h | h | h | h | h | h | h <;> simp [pEq, h]
    simp [this]

/-- C8 at `Lit("a")` with no parent and under an `Equals` parent. -/
theorem C8_leaf_by_parent_witness :
    Ret.doc (Render Fmt.sample ⟨none⟩ (Lit (.str "a")) none)
        = some (.queryString ["*"] true "a", none)
      ∧ Ret.doc (Render Fmt.sample ⟨none⟩ (Lit (.str "a")) (some (Eq "f" (.str "a"))))
        = some (.str "a", none) :=
  ⟨(C8_leaf_by_parent Fmt.sample ⟨none⟩ "a" .Literal GoFloat.zero 0 (Or.inl rfl)).1 none
      (Or.inl rfl),
    (C8_leaf_by_parent Fmt.sample ⟨none⟩ "a" .Literal GoFloat.zero 0 (Or.inl rfl)).2
      (Eq "f" (.str "a")) (Or.inl rfl)⟩

/-- C9: the field name emitted for `Eq(f, t)` (the one entry of `fields`,
whether or not the node is wrapped) is `f` with every space replaced by a
backslash and a space and every other character, a double quote included,
unchanged; a name without a space is emitted verbatim; the emitted name is
longer than `f` by exactly the number of spaces in `f`. -/
theorem C9_field_name_escaping (F : Fmt) (b : ElasticDSLDriver) (f : String) (t : Operand)
    (p : Option Expression) (ht : t.isLiteral = true) :
    (Ret.doc (Render F b (Eq f t) p)).map (fun d => d.1.fields)
        = some [ReplaceAllSpace f "\\ "]
      ∧ (ReplaceAllSpace f "\\ ").data
        = f.data.flatMap (fun c => if c = ' ' then ['\\', ' '] else [c])
      ∧ (' ' ∉ f.data → ReplaceAllSpace f "\\ " = f)
      ∧ (ReplaceAllSpace f "\\ ").length = f.length + f.data.count ' ' := by
  refine ⟨?_, rfl, ReplaceAllSpace_no_space f, ReplaceAllSpace_length f⟩
  rw [Render_Eq F b f t ht p]
  simp only [Ret.doc, Option.map_some', Option.some.injEq]
  unfold ElasticDSLDriver.wrapInHasChild
  split
  · split <;> rfl
  · rfl

/-- C9 at the trees of the tests `space_in_fieldname` and `quoted_column_name`. -/
theorem C9_field_name_escaping_witness :
    (Operand.int 1).isLiteral = true
      ∧ (Ret.doc (Render Fmt.sample ⟨none⟩ (Eq "a b" (.int 1)) none)).map (fun d => d.1.fields)
        = some ["a\\ b"]
      ∧ (Ret.doc (Render Fmt.sample ⟨none⟩ (Eq "\"foobar\"" (.int 1)) none)).map
          (fun d => d.1.fields) = some ["\"foobar\""] :=
  ⟨rfl, (C9_field_name_escaping Fmt.sample ⟨none⟩ "a b" (.int 1) none rfl).1,
    (C9_field_name_escaping Fmt.sample ⟨none⟩ "\"foobar\"" (.int 1) none rfl).1⟩

/-- C10 as stated fails: `BOOST("foo", 1.0)` renders the query text `foo^`
and `FUZZY(Eq("a", "foo"), 1)` the query text `foo~`, not `foo`. -/
theorem C10_counterexample :
    Ret.doc (Render Fmt.sample ⟨none⟩ (BOOST (.str "foo") ⟨1, 0⟩) none)
        = some (.queryString ["*"] true "foo^", none)
      ∧ Ret.doc (Render Fmt.sample ⟨none⟩ (FUZZY (.expr (Eq "a" (.str "foo"))) 1) none)
        = some (.queryString ["a"] true "foo~", none)
      ∧ Ret.doc (Render Fmt.sample ⟨none⟩ (BOOST (.str "foo") ⟨1, 0⟩) none)
        ≠ some (.queryString ["*"] true "foo", none) := by
  refine ⟨rfl, rfl, ?_⟩
  rw [show Ret.doc (Render Fmt.sample ⟨none⟩ (BOOST (.str "foo") ⟨1, 0⟩) none)
    = some (.queryString ["*"] true "foo^", none) from rfl]
  simp

/-- C10, amended: with power 1.0 or distance 1 the number is left out and the
marker stays. For a text term `t`, `Boost` with power 1.0 renders the query
text `t^` and `Fuzzy` with distance 1 the query text `t~`, both over the bare
literal `t` (under no field-scoping parent: the `query_string` node over
`*`) and over the clause `Eq(f, t)` (the `query_string` node over the column
as `%s` prints it, handed to `wrapInHasChild` under that name). -/
theorem C10_default_suffix_keeps_marker (F : Fmt) (b : ElasticDSLDriver) (f t : String)
    (pw : GoFloat) (p : Option Expression) (hpw : pw.isOne = true) (hp : pEq p = false) :
    Ret.doc (Render F b (BOOST (.str t) pw) p) = some (.queryString ["*"] true (t ++ "^"), none)
      ∧ Ret.doc (Render F b (FUZZY (.str t) 1) p)
        = some (.queryString ["*"] true (t ++ "~"), none)
      ∧ Ret.doc (Render F b (BOOST (.expr (Eq f (.str t))) pw) p)
        = some (b.wrapInHasChild f (.queryString [f] true (t ++ "^")))
      ∧ Ret.doc (Render F b (FUZZY (.expr (Eq f (.str t))) 1) p)
        = some (b.wrapInHasChild f (.queryString [f] true (t ++ "~"))) := by
  have hs : ∀ x : String, sprintS F (.str x) = x := fun _ => rfl
  have hc : sprintS F (.raw (.column f)) = f := rfl
  have hE : ∀ q, serialize F b (.expr (Eq f (.str t))) q
      = some ⟨(b.wrapInHasChild (ReplaceAllSpace f "\\ ")
          (.queryString [ReplaceAllSpace f "\\ "] true t)).1, none,
          .expr (Eq f (.str t))⟩ :=
    fun q => serialize_expr F b _ _ q _ _ (Render_Eq F b f (.str t) rfl q)
  refine ⟨?_, ?_, ?_, ?_⟩
  · unfold BOOST
    rw [Render_node F b (literalToExpr (.str t)) .nil _ _ .Boost pw 0 p _ _
      (serialize_literal F b (.str t) rfl _ rfl) (serialize_nil F b _)]
    simp [renderOp, renderModifier, literalToExpr, Lit, Expression.Op, suffix,
      Expression.BoostPower, hpw, hp, hs, sprintOperand, makeLiteralOrQueryString,
      makeQueryString, Ret.of, Ret.doc]
  · unfold FUZZY
    rw [Render_node F b (literalToExpr (.str t)) .nil _ _ .Fuzzy GoFloat.zero 1 p _ _
      (serialize_literal F b (.str t) rfl _ rfl) (serialize_nil F b _)]
    simp [renderOp, renderModifier, literalToExpr, Lit, Expression.Op, suffix,
      Expression.FuzzyDistance, hp, hs, sprintOperand, makeLiteralOrQueryString,
      makeQueryString, Ret.of, Ret.doc]
  · unfold BOOST
    rw [show literalToExpr (.expr (Eq f (.str t))) = .expr (Eq f (.str t)) from rfl,
      Render_node F b (.expr (Eq f (.str t))) .nil _ _ .Boost pw 0 p _ _
        (hE _) (serialize_nil F b _)]
    simp [renderOp, renderModifier, Eq, literalToExpr, Lit, Expression.Op, suffix,
      Expression.BoostPower, hpw, hc, makeQueryString, Ret.of, Ret.doc]
  · unfold FUZZY
    rw [show literalToExpr (.expr (Eq f (.str t))) = .expr (Eq f (.str t)) from rfl,
      Render_node F b (.expr (Eq f (.str t))) .nil _ _ .Fuzzy GoFloat.zero 1 p _ _
        (hE _) (serialize_nil F b _)]
    simp [renderOp, renderModifier, Eq, literalToExpr, Lit, Expression.Op, suffix,
      Expression.FuzzyDistance, hc, makeQueryString, Ret.of, Ret.doc]

/-- C10 (amended) at `BOOST("foo", 1.0)` and `FUZZY(Eq("a", "foo"), 1)`. -/
theorem C10_default_suffix_keeps_marker_witness :
    GoFloat.isOne ⟨1, 0⟩ = true ∧ pEq none = false
      ∧ Ret.doc (Render Fmt.sample ⟨none⟩ (BOOST (.str "foo") ⟨1, 0⟩) none)
        = some (.queryString ["*"] true ("foo" ++ "^"), none) :=
  ⟨rfl, rfl, (C10_default_suffix_keeps_marker Fmt.sample ⟨none⟩ "a" "foo" ⟨1, 0⟩ none rfl rfl).1⟩

/-- C11: an explicit modifier number on a bare term. For a text term `t` and
a distance `d` other than 1 the top-level node `FUZZY(t, d)` renders to the
`query_string` node with fields `["*"]`, lenient, and the query `t` followed
by `~` and the decimal digits of `d` (`FUZZY("foo", 2)` gives `foo~2`); the
top-level node `BOOST(t, 2)` renders to the query `t` followed by
`^2.000000`. -/
theorem C11_explicit_suffix_on_bare_term (F : Fmt) (b : ElasticDSLDriver) (t : String)
    (d : Int) (hd : d ≠ 1) :
    Ret.doc (Render F b (FUZZY (.str t) d) none)
        = some (.queryString ["*"] true (t ++ "~" ++ toString d), none)
      ∧ (0 ≤ d → Ret.doc (Render F b (FUZZY (.str t) d) none)
        = some (.queryString ["*"] true
            (t ++ "~" ++ String.mk (Nat.toDigits 10 d.toNat)), none))
      ∧ Ret.doc (Render F b (BOOST (.str t) (GoFloat.ofInt 2)) none)
        = some (.queryString ["*"] true (t ++ "^2.000000"), none) := by
  have hs : ∀ x : String, sprintS F (.str x) = x := fun _ => rfl
  have h2 : fmtF (GoFloat.ofInt 2) = "2.000000" := by decide
  have h1 : (GoFloat.ofInt 2).isOne = false := by decide
  have hFz : Ret.doc (Render F b (FUZZY (.str t) d) none)
      = some (.queryString ["*"] true (t ++ "~" ++ toString d), none) := by
    unfold FUZZY
    rw [Render_node F b (literalToExpr (.str t)) .nil _ _ .Fuzzy GoFloat.zero d none _ _
      (serialize_literal F b (.str t) rfl _ rfl) (serialize_nil F b _)]
    simp [renderOp, renderModifier, literalToExpr, Lit, Expression.Op, suffix,
      Expression.FuzzyDistance, hd, hs, sprintOperand, makeLiteralOrQueryString,
      makeQueryString, Ret.of, Ret.doc, pEq, String.append_assoc, fmtD]
  refine ⟨hFz, ?_, ?_⟩
  · intro h0
    rw [hFz]
    obtain ⟨n, rfl⟩ := Int.eq_ofNat_of_zero_le h0
    rfl
  · unfold BOOST
    rw [Render_node F b (literalToExpr (.str t)) .nil _ _ .Boost (GoFloat.ofInt 2) 0 none _ _
      (serialize_literal F b (.str t) rfl _ rfl) (serialize_nil F b _)]
    simp [renderOp, renderModifier, literalToExpr, Lit, Expression.Op, suffix,
      Expression.BoostPower, h1, h2, hs, sprintOperand, makeLiteralOrQueryString,
      makeQueryString, Ret.of, Ret.doc, pEq, String.append_assoc]

/-- C11 at the trees of the tests `simple_fuzzy` and `simple_boost`, and at
the distances 10 and -3. -/
theorem C11_explicit_suffix_on_bare_term_witness :
    (2 : Int) ≠ 1 ∧ (10 : Int) ≠ 1 ∧ (-3 : Int) ≠ 1
      ∧ Ret.doc (Render Fmt.sample ⟨none⟩ (FUZZY (.str "foo") 2) none)
        = some (.queryString ["*"] true "foo~2", none)
      ∧ Ret.doc (Render Fmt.sample ⟨none⟩ (FUZZY (.str "foo") 10) none)
        = some (.queryString ["*"] true "foo~10", none)
      ∧ Ret.doc (Render Fmt.sample ⟨none⟩ (FUZZY (.str "foo") (-3)) none)
        = some (.queryString ["*"] true "foo~-3", none)
      ∧ Ret.doc (Render Fmt.sample ⟨none⟩ (BOOST (.str "foo") (GoFloat.ofInt 2)) none)
        = some (.queryString ["*"] true "foo^2.000000", none) :=
  ⟨by decide, by decide, by decide,
    (C11_explicit_suffix_on_bare_term Fmt.sample ⟨none⟩ "foo" 2 (by decide)).1,
    (C11_explicit_suffix_on_bare_term Fmt.sample ⟨none⟩ "foo" 10 (by decide)).1,
    (C11_explicit_suffix_on_bare_term Fmt.sample ⟨none⟩ "foo" (-3) (by decide)).1,
    (C11_explicit_suffix_on_bare_term Fmt.sample ⟨none⟩ "foo" 2 (by decide)).2.2⟩

/-- C12 as stated fails: rendering `FUZZY(Eq("a", "smthg"), 2)` overwrites the
term text of the clause with `smthg~2`, so the tree after the call is not the
tree before it, and rendering that tree again returns the query `smthg~2~2`
instead of `smthg~2`. -/
theorem C12_counterexample :
    Render Fmt.sample ⟨none⟩ (FUZZY (.expr (Eq "a" (.str "smthg"))) 2) none
        = some ⟨.queryString ["a"] true "smthg~2", none,
            FUZZY (.expr (Eq "a" (.str "smthg~2"))) 2⟩
      ∧ FUZZY (.expr (Eq "a" (.str "smthg~2"))) 2 ≠ FUZZY (.expr (Eq "a" (.str "smthg"))) 2
      ∧ Ret.doc (Render Fmt.sample ⟨none⟩ (FUZZY (.expr (Eq "a" (.str "smthg~2"))) 2) none)
        = some (.queryString ["a"] true "smthg~2~2", none) := by
  refine ⟨rfl, ?_, rfl⟩
  simp [FUZZY, Eq, literalToExpr, Lit]

/-- C12, amended: `Render` writes to the tree in one place only, where a
`Boost` or a `Fuzzy` node stands over a clause (an operand expression with a
right operand). A tree on which `Render` visits no such node - a tree with
no modifier, or with modifiers over bare terms only - is, after a call that
returns, exactly the tree it was, and rendering it a second time returns the
same result as the first time; rendering `FUZZY(Eq(f, t), d)` or
`BOOST(Eq(f, t), pw)` replaces the term text `t` of the clause by `t`
followed by the suffix and leaves the rest of the tree as it was. -/
theorem C12_tree_written_only_by_modifiers (F : Fmt) (b : ElasticDSLDriver)
    (p : Option Expression) :
    (∀ (e : Expression) (r : Ret Expression), e.writeFree = true →
        Render F b e p = some r → r.tree = e ∧ Render F b r.tree p = some r)
      ∧ (∀ (f t : String) (d : Int),
        (Render F b (FUZZY (.expr (Eq f (.str t))) d) p).map (fun r => r.tree)
          = some (FUZZY (.expr (Eq f (.str (t ++ "~" ++ if d = 1 then "" else toString d))))
              d))
      ∧ (∀ (f t : String) (pw : GoFloat),
        (Render F b (BOOST (.expr (Eq f (.str t))) pw) p).map (fun r => r.tree)
          = some (BOOST (.expr (Eq f (.str (t ++ "^" ++ if pw.isOne then "" else fmtF pw))))
              pw)) := by
  have hE : ∀ (f t : String) q, serialize F b (.expr (Eq f (.str t))) q
      = some ⟨(b.wrapInHasChild (ReplaceAllSpace f "\\ ")
          (.queryString [ReplaceAllSpace f "\\ "] true t)).1, none,
          .expr (Eq f (.str t))⟩ :=
    fun f t q => serialize_expr F b _ _ q _ _ (Render_Eq F b f (.str t) rfl q)
  refine ⟨?_, ?_, ?_⟩
  · intro e r hm h
    have ht := Render_tree_writeFree F b e hm p r h
    exact ⟨ht, by rw [ht]; exact h⟩
  · intro f t d
    unfold FUZZY
    rw [show literalToExpr (.expr (Eq f (.str t))) = .expr (Eq f (.str t)) from rfl,
      Render_node F b (.expr (Eq f (.str t))) .nil _ _ .Fuzzy GoFloat.zero d p _ _
        (hE f t _) (serialize_nil F b _)]
    simp [renderOp, renderModifier, Eq, literalToExpr, Lit, Expression.Op, suffix,
      Expression.FuzzyDistance, makeQueryString, Ret.of, String.append_assoc, fmtD]
  · intro f t pw
    unfold BOOST
    rw [show literalToExpr (.expr (Eq f (.str t))) = .expr (Eq f (.str t)) from rfl,
      Render_node F b (.expr (Eq f (.str t))) .nil _ _ .Boost pw 0 p _ _
        (hE f t _) (serialize_nil F b _)]
    simp [renderOp, renderModifier, Eq, literalToExpr, Lit, Expression.Op, suffix,
      Expression.BoostPower, makeQueryString, Ret.of, String.append_assoc]

/-- C12 (amended) at the tree of the test `simple_fuzzy`, a modifier over a
bare term: the tree is unchanged and renders the same a second time; and at
the tree of the test `fuzzy_equals`, where the term text is overwritten. -/
theorem C12_tree_written_only_by_modifiers_witness :
    (FUZZY (.str "foo") 2).writeFree = true
      ∧ Render Fmt.sample ⟨none⟩ (FUZZY (.str "foo") 2) none
        = some ⟨.queryString ["*"] true "foo~2", none, FUZZY (.str "foo") 2⟩
      ∧ ((Ret.mk (.queryString ["*"] true "foo~2") none (FUZZY (.str "foo") 2)).tree
          = FUZZY (.str "foo") 2
        ∧ Render Fmt.sample ⟨none⟩
            (Ret.mk (.queryString ["*"] true "foo~2") none (FUZZY (.str "foo") 2)).tree none
          = some ⟨.queryString ["*"] true "foo~2", none, FUZZY (.str "foo") 2⟩)
      ∧ (Render Fmt.sample ⟨none⟩ (FUZZY (.expr (Eq "a" (.str "smthg"))) 2) none).map
          (fun r => r.tree)
        = some (FUZZY (.expr (Eq "a" (.str "smthg~2"))) 2) :=
  ⟨rfl, rfl,
    (C12_tree_written_only_by_modifiers Fmt.sample ⟨none⟩ none).1
      (FUZZY (.str "foo") 2) _ rfl rfl,
    (C12_tree_written_only_by_modifiers Fmt.sample ⟨none⟩ none).2.1 "a" "smthg" 2⟩

/-- C13 as stated fails: the `Range` node with the string left operand `a`
and no right operand renders to the document `a` with a nil error, and the
`Range` node over the column `a` with the text `x` as right operand aborts on
the assertion `e.Left.(string)`; neither returns an error. -/
theorem C13_counterexample :
    Ret.doc (Render Fmt.sample ⟨none⟩ (.mk (.str "a") .Range .nil GoFloat.zero 0) none)
        = some (.str "a", none)
      ∧ Render Fmt.sample ⟨none⟩ (.mk (.column "a") .Range (.str "x") GoFloat.zero 0) none
        = none :=
  ⟨rfl, rfl⟩

/-- C13, amended: `Render` has no error to return. For a `Range` node whose
right operand is not a `RangeBoundary`, every call that returns at all
returns a nil error and, as the document, the left operand, which is then a
string; with a string left operand and a right operand that serializes the
call does return; with any other left operand the call aborts on the
assertion `e.Left.(string)` (or earlier, in an operand). -/
theorem C13_range_without_boundary (F : Fmt) (b : ElasticDSLDriver) (l r : Operand)
    (bp : GoFloat) (fd : Int) (p : Option Expression) (hr : ∀ rb, r ≠ .boundary rb) :
    (∀ ret, Render F b (.mk l .Range r bp fd) p = some ret →
        ret.err = none ∧ ∃ s, l = .str s ∧ ret.s = .str s)
      ∧ (∀ s, l = .str s →
        (serialize F b r (some (.mk l .Range r bp fd))).isSome = true →
        Ret.doc (Render F b (.mk l .Range r bp fd) p) = some (.str s, none))
      ∧ ((∀ s, l ≠ .str s) → Render F b (.mk l .Range r bp fd) p = none) := by
  have key : ∀ ret, Render F b (.mk l .Range r bp fd) p = some ret →
      ret.err = none ∧ ∃ s, l = .str s ∧ ret.s = .str s := by
    intro ret h
    refine ⟨Render_err_none F b _ p ret h, ?_⟩
    simp only [Render] at h
    split at h
    · exact absurd h (by simp)
    · exact absurd h (by
        rename_i s err l1 hs
        have := serialize_err_none _ _ _ _ _ hs
        simp at this)
    · rename_i left l1 hs
      split at h
      · exact absurd h (by simp)
      · exact absurd h (by
          rename_i s err r1 hs2
          have := serialize_err_none _ _ _ _ _ hs2
          simp at this)
      · rename_i right r1 hs2
        have k1 := (serialize_kind F b l _ _ hs).1
        have k2 := (serialize_kind F b r _ _ hs2).2 hr
        simp only at k1 k2
        have hret : returnLeft (.mk l1 .Range r1 bp fd) = some ret := by
          cases r1 with
          | boundary rb => exact absurd rfl (k2 rb)
          | _ => exact h
        cases l1 with
        | str s =>
          obtain ⟨e1, e2⟩ := k1 s rfl
          simp only [returnLeft, Expression.Left, Option.some.injEq] at hret
          rw [← hret]
          exact ⟨s, e1, rfl⟩
        | _ => simp [returnLeft, Expression.Left] at hret
  refine ⟨key, ?_, ?_⟩
  · intro s hl hsome
    subst hl
    obtain ⟨rr, hrr⟩ := Option.isSome_iff_exists.mp hsome
    obtain ⟨rv, rerr, r1⟩ := rr
    have he : rerr = none := serialize_err_none _ _ _ _ _ hrr
    subst he
    have k2 := (serialize_kind F b r _ _ hrr).2 hr
    simp only at k2
    rw [Render_node F b (.str s) r (.str s) r1 .Range bp fd p (.str s) rv
      (by simp only [serialize]) hrr]
    cases r1 with
    | boundary rb => exact absurd rfl (k2 rb)
    | _ => rfl
  · intro hl
    cases h : Render F b (.mk l .Range r bp fd) p with
    | none => rfl
    | some ret =>
      obtain ⟨_, s, e1, _⟩ := key ret h
      exact absurd e1 (hl s)

/-- C13 (amended) at the `Range` node with the string left operand `a` and no
right operand. -/
theorem C13_range_without_boundary_witness :
    (∀ rb, Operand.nil ≠ .boundary rb)
      ∧ (serialize Fmt.sample ⟨none⟩ .nil
          (some (.mk (.str "a") .Range .nil GoFloat.zero 0))).isSome = true
      ∧ Ret.doc (Render Fmt.sample ⟨none⟩ (.mk (.str "a") .Range .nil GoFloat.zero 0) none)
        = some (.str "a", none) :=
  ⟨fun _ h => Operand.noConfusion h, rfl,
    (C13_range_without_boundary Fmt.sample ⟨none⟩ (.str "a") .nil GoFloat.zero 0 none
      (fun _ h => Operand.noConfusion h)).2.1 "a" rfl rfl⟩

/-- C14, the code at two failing inputs: `IN("a", LIST(Lit(5)))` aborts on the
assertion `query.Left.(string)` and `FUZZY(Eq("a", 5), 2)` aborts on the
assertion `exp.Right.(*expr.Expression).Left.(string)`, while the clause
`Eq("a", 5)` itself renders. -/
theorem C14_numeric_literal_aborts :
    Render Fmt.sample ⟨none⟩ (IN "a" (LIST [Lit (.int 5)])) none = none
      ∧ Render Fmt.sample ⟨none⟩ (FUZZY (.expr (Eq "a" (.int 5))) 2) none = none
      ∧ Ret.doc (Render Fmt.sample ⟨none⟩ (Eq "a" (.int 5)) none)
        = some (.queryString ["a"] true "5", none) :=
  ⟨rfl, rfl, rfl⟩

/-- C15 as stated fails: `Render` succeeds on `Rang("a", +Inf, 10, true)`,
with a nil error and a range node that holds the bound `+Inf`, and
`RenderToString` returns no JSON object for it but the empty string and the
error of `json.MarshalIndent`, which cannot write a float that is not finite. -/
theorem C15_counterexample :
    Ret.doc (Render Fmt.sample ⟨none⟩ (Rang "a" (.nonFinite .posInf) (.int 10) true) none)
        = some (.range "a" .nil (.raw (.int 10)) .nil (.raw (.nonFinite .posInf)), none)
      ∧ RenderToString Encoder.sample Fmt.sample ⟨none⟩
          (some (Rang "a" (.nonFinite .posInf) (.int 10) true))
        = some ⟨"", some "json: unsupported value: +Inf",
            some (Rang "a" (.nonFinite .posInf) (.int 10) true)⟩ :=
  ⟨rfl, rfl⟩

/-- C15, amended: for a tree `e` on which `Render` returns and whose rendered
value `encoding/json` can marshal to the document `j`, `RenderToString(e)`
returns, with a nil error, the indented text of the JSON object with exactly
one key, `query`, whose value is `j`, the document of `Render(e, nil)` (the
root has no parent); when the marshalling fails, `RenderToString` returns
that error and the empty string, and so it does with an error of `Render`;
when `Render` aborts, so does `RenderToString`. -/
theorem C15_render_to_string (E : Encoder) (F : Fmt) (b : ElasticDSLDriver)
    (e : Expression) :
    (∀ r j, Render F b e none = some r → toJson E r.s = .ok j →
        RenderToString E F b (some e)
          = some ⟨"\x7b\n    " ++ E.quote "query" ++ ": " ++ Json.text E 1 j ++ "\n\x7d", none,
              some r.tree⟩)
      ∧ (∀ r err, Render F b e none = some r → toJson E r.s = .error err →
        RenderToString E F b (some e) = some ⟨"", some err, some r.tree⟩)
      ∧ (∀ r err, Render F b e none = some r → r.err = some err →
        RenderToString E F b (some e) = some ⟨"", some err, some r.tree⟩)
      ∧ (Render F b e none = none → RenderToString E F b (some e) = none) := by
  refine ⟨?_, ?_, ?_, ?_⟩
  · intro r j h hj
    obtain ⟨v, err, t⟩ := r
    have he : err = none := Render_err_none F b e none _ h
    subst he
    simp only at hj
    have hstr : ∀ q x : String,
        "\x7b\n" ++ (indentOf 1 ++ q ++ ": " ++ x ++ "" ++ "") ++ "\n" ++ indentOf 0 ++ "\x7d"
          = "\x7b\n    " ++ q ++ ": " ++ x ++ "\n\x7d" := by
      intro q x
      apply String.ext
      simp [String.data_append, indentOf]
    simp only [RenderToString, RenderNil, h, Option.map_some', MarshalIndent, List.map,
      omitEmpty, hj, joinMembers, List.append_nil, Json.text, membersText, List.isEmpty,
      Bool.false_eq_true, if_false, if_true, Nat.zero_add, hstr]
  · intro r err h hj
    obtain ⟨v, err0, t⟩ := r
    have he : err0 = none := Render_err_none F b e none _ h
    subst he
    simp only at hj
    simp only [RenderToString, RenderNil, h, Option.map_some', MarshalIndent, List.map,
      omitEmpty, hj, joinMembers, Bool.false_eq_true, if_false]
  · intro r err h herr
    obtain ⟨v, err0, t⟩ := r
    simp only at herr
    subst herr
    simp only [RenderToString, RenderNil, h, Option.map_some']
  · intro h
    simp only [RenderToString, RenderNil, h, Option.map_none']

set_option maxRecDepth 100000

/-- C15 (amended) at the trees of the tests `simple_equals`, `gte_range` and
`simple_not`, and at the mapped clause of `nested_and_has_child`: the text
that `RenderToString` returns. -/
theorem C15_render_to_string_witness :
    Render Fmt.sample ⟨none⟩ (Eq "a" (.int 5)) none
        = some ⟨.queryString ["a"] true "5", none, Eq "a" (.int 5)⟩
      ∧ toJson Encoder.sample (.queryString ["a"] true "5")
        = .ok (.obj [("query_string", .obj [("fields", .arr [.str "a"]),
            ("lenient", .bool true), ("query", .str "5")])])
      ∧ RenderToString Encoder.sample Fmt.sample ⟨none⟩ (some (Eq "a" (.int 5)))
        = some ⟨"\x7b\n    \"query\": \x7b\n        \"query_string\": \x7b\n            \"fields\": [\n                \"a\"\n            ],\n            \"lenient\": true,\n            \"query\": \"5\"\n        \x7d\n    \x7d\n\x7d",
            none, some (Eq "a" (.int 5))⟩
      ∧ RenderToString Encoder.sample Fmt.sample ⟨none⟩
          (some (Rang "a" (.int 1) (.str "*") true))
        = some ⟨"\x7b\n    \"query\": \x7b\n        \"range\": \x7b\n            \"a\": \x7b\n                \"gte\": 1\n            \x7d\n        \x7d\n    \x7d\n\x7d",
            none, some (Rang "a" (.int 1) (.str "*") true)⟩
      ∧ RenderToString Encoder.sample Fmt.sample ⟨none⟩
          (some (NOT (.expr (Eq "a" (.int 1)))))
        = some ⟨"\x7b\n    \"query\": \x7b\n        \"bool\": \x7b\n            \"must_not\": [\n                \x7b\n                    \"query_string\": \x7b\n                        \"fields\": [\n                            \"a\"\n                        ],\n                        \"lenient\": true,\n                        \"query\": \"1\"\n                    \x7d\n                \x7d\n            ]\n        \x7d\n    \x7d\n\x7d",
            none, some (NOT (.expr (Eq "a" (.int 1))))⟩
      ∧ RenderToString Encoder.sample Fmt.sample ⟨some [("answer.author", "answer")]⟩
          (some (Eq "answer.author" (.str "sudo")))
        = some ⟨"\x7b\n    \"query\": \x7b\n        \"has_child\": \x7b\n            \"query\": \x7b\n                \"query_string\": \x7b\n                    \"fields\": [\n                        \"answer.author\"\n                    ],\n                    \"lenient\": true,\n                    \"query\": \"sudo\"\n                \x7d\n            \x7d,\n            \"type\": \"answer\"\n        \x7d\n    \x7d\n\x7d",
            none, some (Eq "answer.author" (.str "sudo"))⟩ :=
  ⟨rfl, rfl,
    (C15_render_to_string Encoder.sample Fmt.sample ⟨none⟩ (Eq "a" (.int 5))).1 _ _ rfl rfl,
    (C15_render_to_string Encoder.sample Fmt.sample ⟨none⟩
      (Rang "a" (.int 1) (.str "*") true)).1 _ _ rfl rfl,
    (C15_render_to_string Encoder.sample Fmt.sample ⟨none⟩
      (NOT (.expr (Eq "a" (.int 1))))).1 _ _ rfl rfl,
    (C15_render_to_string Encoder.sample Fmt.sample ⟨some [("answer.author", "answer")]⟩
      (Eq "answer.author" (.str "sudo"))).1 _ _ rfl rfl⟩

/-- C16: for a renderable `X` and every mapping, `NOT(X)` and `MUSTNOT(X)`
render to the same document, the bool node whose only clause is the
`must_not` array with the single element `Render X`, and `MUST(X)` renders
to the bool node whose only clause is the `must` array with that element. -/
theorem C16_not_must_mustnot (F : Fmt) (b : ElasticDSLDriver) (X : Expression) (vx : Value)
    (hX : Ret.doc (Render F b X none) = some (vx, none)) (p : Option Expression) :
    Ret.doc (Render F b (NOT (.expr X)) p) = some (.bool none none none (some [vx]), none)
      ∧ Ret.doc (Render F b (MUSTNOT (.expr X)) p)
        = some (.bool none none none (some [vx]), none)
      ∧ Ret.doc (Render F b (MUST (.expr X)) p)
        = some (.bool (some [vx]) none none none, none) := by
  obtain ⟨tx, hx⟩ := doc_eq_some _ _ _ hX
  have h1 : ∀ q, pEq q = false → serialize F b (.expr X) q = some ⟨vx, none, .expr tx⟩ :=
    fun q hq => serialize_expr F b X tx q vx none
      (by rw [Render_parent F b X q none (by rw [hq]; rfl), hx])
  refine ⟨?_, ?_, ?_⟩
  · unfold NOT
    rw [show literalToExpr (.expr X) = .expr X from rfl,
      Render_node F b (.expr X) .nil _ _ .Not GoFloat.zero 0 p _ _ (h1 _ rfl)
        (serialize_nil F b _)]
    rfl
  · unfold MUSTNOT
    rw [show literalToExpr (.expr X) = .expr X from rfl,
      Render_node F b (.expr X) .nil _ _ .MustNot GoFloat.zero 0 p _ _ (h1 _ rfl)
        (serialize_nil F b _)]
    rfl
  · unfold MUST
    rw [show literalToExpr (.expr X) = .expr X from rfl,
      Render_node F b (.expr X) .nil _ _ .Must GoFloat.zero 0 p _ _ (h1 _ rfl)
        (serialize_nil F b _)]
    rfl

/-- C16 at the trees of the tests `simple_not` and `must_ignored`. -/
theorem C16_not_must_mustnot_witness :
    Ret.doc (Render Fmt.sample ⟨none⟩ (Eq "a" (.int 1)) none)
        = some (.queryString ["a"] true "1", none)
      ∧ Ret.doc (Render Fmt.sample ⟨none⟩ (NOT (.expr (Eq "a" (.int 1)))) none)
        = some (.bool none none none (some [.queryString ["a"] true "1"]), none)
      ∧ Ret.doc (Render Fmt.sample ⟨none⟩ (MUSTNOT (.expr (Eq "a" (.int 1)))) none)
        = some (.bool none none none (some [.queryString ["a"] true "1"]), none)
      ∧ Ret.doc (Render Fmt.sample ⟨none⟩ (MUST (.expr (Eq "a" (.int 1)))) none)
        = some (.bool (some [.queryString ["a"] true "1"]) none none none, none) :=
  ⟨rfl, C16_not_must_mustnot Fmt.sample ⟨none⟩ (Eq "a" (.int 1)) _ rfl none⟩

/-- C17, the code at the failing input: for the tree
`BOOST(FUZZY(Eq("answer.author", "sudo"), 2), 1.5)` the document rendered
with the mapping of `answer.author` to `answer` is a `query_string` node
whose query text spells out the `has_child` struct, the document rendered
with the nil or the empty mapping spells out the bare `query_string` struct;
neither holds a `has_child` node, and the two differ. -/
theorem C17_mapping_changes_spliced_text :
    Ret.doc (Render Fmt.sample ⟨some [("answer.author", "answer")]⟩
        (BOOST (.expr (FUZZY (.expr (Eq "answer.author" (.str "sudo"))) 2)) ⟨3, 1⟩) none)
        = some (.queryString ["*"] true
            "\x7b\x7b\x7b\x7b[answer.author] %!s(bool=true) sudo~2\x7d\x7d answer\x7d\x7d^1.500000",
            none)
      ∧ Ret.doc (Render Fmt.sample ⟨none⟩
        (BOOST (.expr (FUZZY (.expr (Eq "answer.author" (.str "sudo"))) 2)) ⟨3, 1⟩) none)
        = some (.queryString ["*"] true
            "\x7b\x7b[answer.author] %!s(bool=true) sudo~2\x7d\x7d^1.500000", none)
      ∧ Ret.doc (Render Fmt.sample ⟨some []⟩
        (BOOST (.expr (FUZZY (.expr (Eq "answer.author" (.str "sudo"))) 2)) ⟨3, 1⟩) none)
        = some (.queryString ["*"] true
            "\x7b\x7b[answer.author] %!s(bool=true) sudo~2\x7d\x7d^1.500000", none) :=
  ⟨rfl, rfl, rfl⟩

/-- C18 as stated fails for a mapped field name with a space: under the
mapping of `a b` to `answer`, `LIKE("a b", "x")` renders to the `query_string`
node with fields `["a\ b"]`, the escaped name, not `["a b"]`, and
`GREATER("a b", "x")` to a range node keyed by `a\ b`. -/
theorem C18_counterexample :
    List.lookup "a b" [("a b", "answer")] = some "answer"
      ∧ Ret.doc (Render Fmt.sample ⟨some [("a b", "answer")]⟩ (LIKE "a b" (.str "x")) none)
        = some (.queryString ["a\\ b"] true "x", none)
      ∧ Ret.doc (Render Fmt.sample ⟨some [("a b", "answer")]⟩ (LIKE "a b" (.str "x")) none)
        ≠ some (.queryString ["a b"] true "x", none)
      ∧ Ret.doc (Render Fmt.sample ⟨some [("a b", "answer")]⟩ (GREATER "a b" (.str "x"))
          none)
        = some (.range "a\\ b" .nil .nil (.str "x") .nil, none) := by
  refine ⟨by decide, rfl, ?_, rfl⟩
  rw [show Ret.doc (Render Fmt.sample ⟨some [("a b", "answer")]⟩ (LIKE "a b" (.str "x")) none)
    = some (.queryString ["a\\ b"] true "x", none) from rfl]
  simp

/-- C18, amended: has-child wrapping is confined to `Equals`. For every
mapping (also one with the key `f`) `LIKE(f, t)` renders to the bare
`query_string` node whose `fields` is `f` with every space escaped as a
backslash and a space (`f` itself when `f` has no space), lenient, with
query `t`, the node that `Eq(f, t)` renders to under the nil and the empty
mapping; a `Range` node on `f` with any two bounds and a `Greater`,
`GreaterEq`, `Less` or `LessEq` node on `f` render to a `range` node keyed by
that escaped name, never to a `has_child` node. -/
theorem C18_wrapping_confined_to_equals (F : Fmt) (b : ElasticDSLDriver) (f : String)
    (t : Operand) (p : Option Expression) (ht : t.isLiteral = true) :
    Ret.doc (Render F b (LIKE f t) p)
        = some (.queryString [ReplaceAllSpace f "\\ "] true (sprintOperand F true t), none)
      ∧ Ret.doc (Render F ⟨none⟩ (Eq f t) p) = Ret.doc (Render F b (LIKE f t) p)
      ∧ Ret.doc (Render F ⟨some []⟩ (Eq f t) p) = Ret.doc (Render F b (LIKE f t) p)
      ∧ (∀ (min max : Operand) (inclusive : Bool), ∃ lt lte gt gte,
          Ret.doc (Render F b (Rang f min max inclusive) p)
            = some (.range (ReplaceAllSpace f "\\ ") lt lte gt gte, none))
      ∧ (∃ lt lte gt gte, Ret.doc (Render F b (GREATER f t) p)
            = some (.range (ReplaceAllSpace f "\\ ") lt lte gt gte, none))
      ∧ (∃ lt lte gt gte, Ret.doc (Render F b (GREATEREQ f t) p)
            = some (.range (ReplaceAllSpace f "\\ ") lt lte gt gte, none))
      ∧ (∃ lt lte gt gte, Ret.doc (Render F b (LESS f t) p)
            = some (.range (ReplaceAllSpace f "\\ ") lt lte gt gte, none))
      ∧ (∃ lt lte gt gte, Ret.doc (Render F b (LESSEQ f t) p)
            = some (.range (ReplaceAllSpace f "\\ ") lt lte gt gte, none)) := by
  have hL : Ret.doc (Render F b (LIKE f t) p)
      = some (.queryString [ReplaceAllSpace f "\\ "] true (sprintOperand F true t), none) := by
    unfold LIKE
    rw [Render_node F b (.column f) (literalToExpr t) _ _ .Like GoFloat.zero 0 p _ _
      (serialize_column F b f _) (serialize_literal F b t ht _ rfl)]
    rfl
  refine ⟨hL, ?_, ?_, ?_, ?_, ?_, ?_, ?_⟩
  · rw [hL, Render_Eq F ⟨none⟩ f t ht p]
    rfl
  · rw [hL, Render_Eq F ⟨some []⟩ f t ht p]
    rfl
  · intro min max inclusive
    unfold Rang
    rw [Render_node F b (.column f)
      (.boundary (.mk (rangeBound min) (rangeBound max) inclusive)) (.column f)
      (.boundary (.mk (rangeBound min) (rangeBound max) inclusive)) .Range GoFloat.zero 0 p
      (.str (ReplaceAllSpace f "\\ "))
      (.raw (.boundary (.mk (rangeBound min) (rangeBound max) inclusive)))
      (serialize_column F b f _) (by simp only [serialize])]
    simp only [renderOp, Expression.Op, Expression.Right, renderRange, Value.asString,
      Value.str, RangeBoundary.Min, RangeBoundary.Max, RangeBoundary.Inclusive]
    cases h1 : isWild (rangeBound min) <;> cases h2 : isWild (rangeBound max) <;>
      cases inclusive <;> simp [Ret.doc]
  · exact ⟨_, _, _, _, (Render_single_sided F b f t p ht).1⟩
  · exact ⟨_, _, _, _, (Render_single_sided F b f t p ht).2.1⟩
  · exact ⟨_, _, _, _, (Render_single_sided F b f t p ht).2.2.1⟩
  · exact ⟨_, _, _, _, (Render_single_sided F b f t p ht).2.2.2⟩

/-- C18 (amended) at the mapped field `answer.author`: `LIKE` is not wrapped
and renders as `Eq` does under the nil mapping, and `LESS` gives a range
node; and at the mapped field `a b`. -/
theorem C18_wrapping_confined_to_equals_witness :
    (Operand.str "sudo").isLiteral = true
      ∧ List.lookup "answer.author" [("answer.author", "answer")] = some "answer"
      ∧ Ret.doc (Render Fmt.sample ⟨some [("answer.author", "answer")]⟩
          (LIKE "answer.author" (.str "sudo")) none)
        = some (.queryString ["answer.author"] true "sudo", none)
      ∧ Ret.doc (Render Fmt.sample ⟨none⟩ (Eq "answer.author" (.str "sudo")) none)
        = Ret.doc (Render Fmt.sample ⟨some [("answer.author", "answer")]⟩
            (LIKE "answer.author" (.str "sudo")) none)
      ∧ Ret.doc (Render Fmt.sample ⟨some [("a b", "answer")]⟩ (LIKE "a b" (.str "sudo")) none)
        = some (.queryString ["a\\ b"] true "sudo", none)
      ∧ (∃ lt lte gt gte, Ret.doc (Render Fmt.sample ⟨some [("answer.author", "answer")]⟩
            (LESS "answer.author" (.str "sudo")) none)
          = some (.range "answer.author" lt lte gt gte, none)) :=
  ⟨rfl, by decide,
    (C18_wrapping_confined_to_equals Fmt.sample ⟨some [("answer.author", "answer")]⟩
      "answer.author" (.str "sudo") none rfl).1,
    (C18_wrapping_confined_to_equals Fmt.sample ⟨some [("answer.author", "answer")]⟩
      "answer.author" (.str "sudo") none rfl).2.1,
    (C18_wrapping_confined_to_equals Fmt.sample ⟨some [("a b", "answer")]⟩
      "a b" (.str "sudo") none rfl).1,
    (C18_wrapping_confined_to_equals Fmt.sample ⟨some [("answer.author", "answer")]⟩
      "answer.author" (.str "sudo") none rfl).2.2.2.2.2.2.1⟩

/-- C19, the code at the failing input: for the field name `a b`,
`FUZZY(Eq("a b", "x"), 2)` renders the field name unescaped and looks the
unescaped name up in the mapping, while `Eq("a b", "x~2")` renders the
escaped name and looks the escaped name up; so the two differ in `fields`
and, under the mapping of `a b` to `answer`, in the `has_child` wrapper. -/
theorem C19_modifier_path_does_not_escape :
    Ret.doc (Render Fmt.sample ⟨none⟩ (FUZZY (.expr (Eq "a b" (.str "x"))) 2) none)
        = some (.queryString ["a b"] true "x~2", none)
      ∧ Ret.doc (Render Fmt.sample ⟨none⟩ (Eq "a b" (.str "x~2")) none)
        = some (.queryString ["a\\ b"] true "x~2", none)
      ∧ Ret.doc (Render Fmt.sample ⟨some [("a b", "answer")]⟩
          (FUZZY (.expr (Eq "a b" (.str "x"))) 2) none)
        = some (.hasChild (.queryString ["a b"] true "x~2") "answer", none)
      ∧ Ret.doc (Render Fmt.sample ⟨some [("a b", "answer")]⟩ (Eq "a b" (.str "x~2")) none)
        = some (.queryString ["a\\ b"] true "x~2", none)
      ∧ Ret.doc (Render Fmt.sample ⟨none⟩ (BOOST (.expr (Eq "a b" (.str "x"))) ⟨2, 0⟩) none)
        = some (.queryString ["a b"] true "x^2.000000", none) :=
  ⟨rfl, rfl, rfl, rfl, rfl⟩

/-- C20, the code at the failing input: `BOOST(FUZZY(Eq("title", "elastic"),
2), 1.5)`, the tree of `title:elastic~2^1.5`, renders to a `query_string`
node over the wildcard field `*` whose query text is the `%s` print of the
inner `query_string` struct followed by `^1.500000`. -/
theorem C20_stacked_modifiers_lose_field :
    Ret.doc (Render Fmt.sample ⟨none⟩
        (BOOST (.expr (FUZZY (.expr (Eq "title" (.str "elastic"))) 2)) ⟨3, 1⟩) none)
        = some (.queryString ["*"] true
            "\x7b\x7b[title] %!s(bool=true) elastic~2\x7d\x7d^1.500000", none)
      ∧ Ret.doc (Render Fmt.sample ⟨none⟩ (FUZZY (.expr (Eq "title" (.str "elastic"))) 2)
          none)
        = some (.queryString ["title"] true "elastic~2", none) :=
  ⟨rfl, rfl⟩

/-- C21: for an expression tree that contains no `Boost` and no `Fuzzy` node
a call of `Render` that returns performs no write to the tree: the tree
after the call is the tree before it, node for node, and rendering it again
with the same mapping returns the same result, hence a document equal to the
first. -/
theorem C21_no_modifier_no_write (F : Fmt) (b : ElasticDSLDriver) (e : Expression)
    (p : Option Expression) (r : Ret Expression) (hm : e.noModifier = true)
    (h : Render F b e p = some r) :
    r.tree = e ∧ Render F b r.tree p = some r
      ∧ Ret.doc (Render F b r.tree p) = Ret.doc (Render F b e p) := by
  have ht := Render_tree_unchanged F b e (noModifier_modifierFree e hm) p r h
  refine ⟨ht, ?_, ?_⟩
  · rw [ht]
    exact h
  · rw [ht]

/-- C21 at the tree of the test `nested_filter`, which has a range and a
regular expression and no modifier. -/
theorem C21_no_modifier_no_write_witness :
    (AND (.expr (OR (.expr (Eq "a" (.str "foo")))
        (.expr (Eq "b" (.expr (REGEXP (.str "/b*ar/")))))))
        (.expr (NOT (.expr (Rang "c" (.str "aaa") (.str "*") false))))).noModifier = true
      ∧ Render Fmt.sample ⟨none⟩
          (AND (.expr (OR (.expr (Eq "a" (.str "foo")))
            (.expr (Eq "b" (.expr (REGEXP (.str "/b*ar/")))))))
            (.expr (NOT (.expr (Rang "c" (.str "aaa") (.str "*") false))))) none
        = some ⟨.bool (some [.bool none (some [.queryString ["a"] true "foo",
              .queryString ["b"] true "/b*ar/"]) none none,
            .bool none none none (some [.range "c" .nil .nil (.str "aaa") .nil])])
            none none none, none,
          AND (.expr (OR (.expr (Eq "a" (.str "foo")))
            (.expr (Eq "b" (.expr (REGEXP (.str "/b*ar/")))))))
            (.expr (NOT (.expr (Rang "c" (.str "aaa") (.str "*") false))))⟩
      ∧ Ret.doc (Render Fmt.sample ⟨none⟩
          (Ret.mk (.bool (some [.bool none (some [.queryString ["a"] true "foo",
              .queryString ["b"] true "/b*ar/"]) none none,
            .bool none none none (some [.range "c" .nil .nil (.str "aaa") .nil])])
            none none none) none
            (AND (.expr (OR (.expr (Eq "a" (.str "foo")))
              (.expr (Eq "b" (.expr (REGEXP (.str "/b*ar/")))))))
              (.expr (NOT (.expr (Rang "c" (.str "aaa") (.str "*") false)))))).tree none)
        = Ret.doc (Render Fmt.sample ⟨none⟩
          (AND (.expr (OR (.expr (Eq "a" (.str "foo")))
            (.expr (Eq "b" (.expr (REGEXP (.str "/b*ar/")))))))
            (.expr (NOT (.expr (Rang "c" (.str "aaa") (.str "*") false))))) none) :=
  ⟨rfl, rfl,
    (C21_no_modifier_no_write Fmt.sample ⟨none⟩
      (AND (.expr (OR (.expr (Eq "a" (.str "foo")))
        (.expr (Eq "b" (.expr (REGEXP (.str "/b*ar/")))))))
        (.expr (NOT (.expr (Rang "c" (.str "aaa") (.str "*") false))))) none _ rfl rfl).2.2⟩

/-- C22: `Render` never reports a failure through its error result. For every
expression tree, parent and mapping, a call of `Render` that returns at all
returns a nil error; `makeQueryString`, `wrapInHasChild`,
`makeLiteralOrQueryString` and `serialize` always return a nil error; so a
call of `Render` either returns some value with a nil error or aborts on a
failed type assertion. -/
theorem C22_error_always_nil (F : Fmt) (b : ElasticDSLDriver) (e : Expression)
    (p : Option Expression) :
    (∀ r, Render F b e p = some r → r.err = none)
      ∧ (∀ field query, (makeQueryString field query).2 = none)
      ∧ (∀ field query, (b.wrapInHasChild field query).2 = none)
      ∧ (∀ lit query, (makeLiteralOrQueryString lit query).2 = none)
      ∧ (∀ o q r, serialize F b o q = some r → r.err = none)
      ∧ (Render F b e p = none ∨ ∃ v t, Render F b e p = some ⟨v, none, t⟩) := by
  refine ⟨Render_err_none F b e p, fun _ _ => rfl, wrapInHasChild_err b,
    makeLiteralOrQueryString_err, serialize_err_none F b, ?_⟩
  cases h : Render F b e p with
  | none => exact Or.inl rfl
  | some r =>
    obtain ⟨v, err, t⟩ := r
    have he : err = none := Render_err_none F b e p _ h
    subst he
    exact Or.inr ⟨v, t, rfl⟩

/-- C22 at a tree that renders (`Eq("a", 5)`) and at one that `Render`
cannot lower (a `Range` node over a column with no boundary), which aborts. -/
theorem C22_error_always_nil_witness :
    Render Fmt.sample ⟨none⟩ (Eq "a" (.int 5)) none
        = some ⟨.queryString ["a"] true "5", none, Eq "a" (.int 5)⟩
      ∧ (Ret.mk (.queryString ["a"] true "5") none (Eq "a" (.int 5))).err = none
      ∧ (Render Fmt.sample ⟨none⟩ (.mk (.column "a") .Range (.str "x") GoFloat.zero 0) none
          = none
        ∨ ∃ v t, Render Fmt.sample ⟨none⟩
            (.mk (.column "a") .Range (.str "x") GoFloat.zero 0) none = some ⟨v, none, t⟩) :=
  ⟨rfl,
    (C22_error_always_nil Fmt.sample ⟨none⟩ (Eq "a" (.int 5)) none).1 _ rfl,
    (C22_error_always_nil Fmt.sample ⟨none⟩
      (.mk (.column "a") .Range (.str "x") GoFloat.zero 0) none).2.2.2.2.2⟩

end ElasticDSL
